import Mathlib

/-!
Verification of the `myst-reader` Pelican plugin
(`pelican/plugins/myst_reader/myst_reader.py`).

The development shallowly embeds the document-transformation pipeline of the
plugin.  Python strings are `String`/`List Char`, Python dynamic values are
`PyVal`, Python exceptions are `PyErr` and fallible code returns `Except`.
External collaborators (the MyST converter, `json.loads`, BeautifulSoup, the
host metadata hook, `count_words_in_markdown`, the filesystem walk of
`_find_bibs`) are black boxes per the plugin's design; they are passed in as
parameters through the `Host` structure, so every theorem quantifies over
their behaviour.
-/

namespace MystReader

/-- Decidable equality for `Except`, needed to evaluate pipeline results on
concrete inputs. -/
instance exceptDecEq {ε α : Type} [DecidableEq ε] [DecidableEq α] :
    DecidableEq (Except ε α) := fun x y =>
  match x, y with
  | Except.error a, Except.error b =>
    if h : a = b then isTrue (by rw [h])
    else isFalse (fun hh => by cases hh; exact h rfl)
  | Except.error _, Except.ok _ => isFalse (fun hh => by cases hh)
  | Except.ok _, Except.error _ => isFalse (fun hh => by cases hh)
  | Except.ok a, Except.ok b =>
    if h : a = b then isTrue (by rw [h])
    else isFalse (fun hh => by cases hh; exact h rfl)

/-- Models a raised Python exception.  The plugin raises bare `Exception`
with a message for metadata-block failures and `ValueError` for validator
and reading-speed failures; `typeError`, `attributeError`, `zeroDivisionError`
and `indexError` model the corresponding Python builtin errors that can
escape from builtins used by the code. -/
inductive PyErr where
  | exception (msg : String)
  | valueError (msg : String)
  | typeError (msg : String)
  | attributeError (attr : String)
  | zeroDivisionError
  | indexError
  deriving DecidableEq

/-- Models a Python dynamic value as far as the pipeline inspects one:
`None`, booleans, ints, floats and strings.  (Structured JSON values are
never inspected by the pipeline; they are passed through unchanged, so they
are not modelled separately.) -/
inductive PyVal where
  | none
  | bool (b : Bool)
  | int (n : ℤ)
  | float (q : ℚ)
  | str (s : String)
  deriving DecidableEq

/-- Python truthiness for `PyVal`. -/
def PyVal.truthy : PyVal → Bool
  | .none => false
  | .bool b => b
  | .int n => n != 0
  | .float q => q != 0
  | .str s => s != ""

/-- Python `isinstance(v, str)`. -/
def PyVal.isStr : PyVal → Bool
  | .str _ => true
  | _ => false

/-- Models the whitespace set of Python `str.strip`/`str.rstrip`
(ASCII whitespace). -/
def pyIsSpace (c : Char) : Bool :=
  c == ' ' || c == '\t' || c == '\n' || c == '\r' || c == '\x0b' || c == '\x0c'

/-- Drop matching characters from the right end of a list. -/
def dropRightWhileL (p : Char → Bool) (l : List Char) : List Char :=
  (l.reverse.dropWhile p).reverse

/-- Models Python `str.strip(chars)` on a character list: drop matching
characters from both ends. -/
def pyStrip (p : Char → Bool) (l : List Char) : List Char :=
  dropRightWhileL p (l.dropWhile p)

/-- Models Python `str.rstrip()` on a character list. -/
def pyRstrip (l : List Char) : List Char :=
  dropRightWhileL pyIsSpace l

/-- Models Python `str.lower` (ASCII model, sufficient for metadata keys). -/
def pyLower (s : String) : String :=
  String.mk (s.data.map Char.toLower)

/-- Worker for `pySplitlines`; `acc` holds the current line reversed.  The
fuel (at least the length of the remaining input) keeps the recursion
structural, hence kernel-evaluable. -/
def pySplitlinesGo : ℕ → List Char → List Char → List (List Char)
  | _, acc, [] => [acc.reverse]
  | 0, acc, _ => [acc.reverse]
  | fuel + 1, acc, c :: cs =>
    if c = '\n' then
      acc.reverse :: (match cs with | [] => [] | _ :: _ => pySplitlinesGo fuel [] cs)
    else if c = '\r' then
      match cs with
      | '\n' :: rest =>
        acc.reverse :: (match rest with | [] => [] | _ :: _ => pySplitlinesGo fuel [] rest)
      | _ =>
        acc.reverse :: (match cs with | [] => [] | _ :: _ => pySplitlinesGo fuel [] cs)
    else pySplitlinesGo fuel (c :: acc) cs

/-- Models Python `str.splitlines()` for the common line terminators
`\n`, `\r` and `\r\n`: the empty string yields no lines, and a trailing
terminator does not produce a final empty line. -/
def pySplitlines : List Char → List (List Char)
  | [] => []
  | c :: cs => pySplitlinesGo (c :: cs).length [] (c :: cs)

/-- Models Python `"s".partition("\n")` as far as the plugin uses it:
returns the part before the first newline and the part after it (the part
after is empty when there is no newline, exactly as in Python). -/
def pyPartitionNl : List Char → List Char × List Char
  | [] => ([], [])
  | c :: cs =>
    if c = '\n' then ([], cs)
    else
      let p := pyPartitionNl cs
      (c :: p.1, p.2)

/-- Fuelled worker for `pyReplace`; the fuel starts at the length of the
subject string, which suffices for nonempty patterns, and keeps the
definition structurally recursive (hence kernel-evaluable). -/
def pyReplaceGo (pat rep : List Char) : ℕ → List Char → List Char
  | _, [] => []
  | 0, s => s
  | fuel + 1, c :: cs =>
    if pat.isPrefixOf (c :: cs) then
      rep ++ pyReplaceGo pat rep fuel (List.drop pat.length (c :: cs))
    else c :: pyReplaceGo pat rep fuel cs

/-- Models Python `str.replace(pat, rep)` (for a nonempty pattern, the only
way the plugin uses it): scan left to right, replacing each non-overlapping
occurrence of `pat` by `rep`. -/
def pyReplace (pat rep s : List Char) : List Char :=
  pyReplaceGo pat rep s.length s

/-- `pyReplace` lifted to `String`, arguments ordered as in
`s.replace(pat, rep)`. -/
def pyReplaceStr (s pat rep : String) : String :=
  String.mk (pyReplace pat.data rep.data s.data)

/-- Models the builtin `float(v)` coercion.  Parsing of float literals from
strings is delegated to the black-box parameter `strFloat` (`Option.none`
meaning the string is not a valid float literal, which makes `float` raise
`ValueError`); non-string non-numeric values make `float` raise
`TypeError`. -/
def pyFloatCoerce (strFloat : String → Option ℚ) : PyVal → Except PyErr ℚ
  | .int n => Except.ok (n : ℚ)
  | .float q => Except.ok q
  | .bool b => Except.ok (if b then 1 else 0)
  | .str s =>
    match strFloat s with
    | some q => Except.ok q
    | Option.none =>
      Except.error (PyErr.valueError "could not convert string to float")
  | .none =>
    Except.error
      (PyErr.typeError "float() argument must be a string or a number, not NoneType")

/-- Models `d[key] = value` on a Python `dict` kept as an ordered
association list: an existing key is updated in place, a new key is
appended. -/
def dictInsert (d : List (String × PyVal)) (key : String) (value : PyVal) :
    List (String × PyVal) :=
  if d.any (fun kv => kv.1 == key) then
    d.map (fun kv => if kv.1 == key then (key, value) else kv)
  else d ++ [(key, value)]

/-- Models `d[key]`/`key in d` on a Python `dict` kept as an ordered
association list: the value of the first entry with the given key, if
any. -/
def dictLookup (d : List (String × PyVal)) (key : String) : Option PyVal :=
  match d with
  | [] => Option.none
  | kv :: rest => if kv.1 = key then some kv.2 else dictLookup rest key

/-! ### Constants of `myst_reader.py` -/

/-- Source constant `DEFAULT_READING_SPEED` (words per minute). -/
def DEFAULT_READING_SPEED : ℤ := 200

/-- First pattern of `ENCODED_LINKS_TO_RAW_LINKS_MAP`. -/
def encStatic : String := "%7Bstatic%7D"

/-- Replacement for `encStatic`. -/
def rawStatic : String := "\x7bstatic\x7d"

/-- Second pattern of `ENCODED_LINKS_TO_RAW_LINKS_MAP`. -/
def encAttach : String := "%7Battach%7D"

/-- Replacement for `encAttach`. -/
def rawAttach : String := "\x7battach\x7d"

/-- Third pattern of `ENCODED_LINKS_TO_RAW_LINKS_MAP`. -/
def encFilename : String := "%7Bfilename%7D"

/-- Replacement for `encFilename`. -/
def rawFilename : String := "\x7bfilename\x7d"

/-- Source constant `ENCODED_LINKS_TO_RAW_LINKS_MAP` (a `dict` in Python;
iteration order is insertion order). -/
def ENCODED_LINKS_TO_RAW_LINKS_MAP : List (String × String) :=
  [(encStatic, rawStatic), (encAttach, rawAttach), (encFilename, rawFilename)]

/-- Source constant `VALID_INPUT_FORMATS`. -/
def VALID_INPUT_FORMATS : List String :=
  ["commonmark", "commonmark_x", "gfm", "markdown", "markdown_mmd",
   "markdown_phpextra", "markdown_strict"]

/-- Source constant `VALID_OUTPUT_FORMATS`. -/
def VALID_OUTPUT_FORMATS : List String := ["html", "html5"]

/-! ### The validators and checkers -/

/-- The four keys of a converter-defaults record that the validators read
(`defaults.get("reader", "")` etc.); absent keys are the empty string, as
in the Python `dict.get` defaults.  `fromFmt`/`toFmt` model the `from`/`to`
keys. -/
structure DefaultsRecord where
  reader : String := ""
  fromFmt : String := ""
  writer : String := ""
  toFmt : String := ""
  deriving DecidableEq

/-- The base format token: source expression
`reader.replace("+", "-").split("-")[0]`, i.e. the characters before the
first `+` or `-`. -/
def readerFormatBase (reader : String) : String :=
  String.mk (reader.data.takeWhile (fun c => c != '+' && c != '-'))

/-- Shallow embedding of `MySTReader._check_input_format`.  Python truthiness
of the string settings is emptiness. -/
def check_input_format (defaults : DefaultsRecord) : Except PyErr String :=
  let readerInput := defaults.reader
  let fromInput := defaults.fromFmt
  if readerInput = "" ∧ fromInput = "" then
    Except.error (PyErr.valueError "No input format specified.")
  else if readerInput ≠ "" ∧ fromInput ≠ "" then
    Except.error (PyErr.valueError
      "Specifying both from and reader is not supported. Please specify just one.")
  else
    let reader := if readerInput ≠ "" then readerInput else fromInput
    if (VALID_INPUT_FORMATS.contains (readerFormatBase reader) : Bool) = false then
      Except.error (PyErr.valueError "Input type has to be a Markdown variant.")
    else Except.ok reader

/-- Shallow embedding of `MySTReader._check_output_format`. -/
def check_output_format (defaults : DefaultsRecord) : Except PyErr Unit :=
  let writerOutput := defaults.writer
  let toOutput := defaults.toFmt
  if writerOutput ≠ "" ∧ toOutput ≠ "" then
    Except.error (PyErr.valueError
      "Specifying both to and writer is not supported. Please specify just one.")
  else if ¬ VALID_OUTPUT_FORMATS.contains writerOutput
      ∧ ¬ VALID_OUTPUT_FORMATS.contains toOutput then
    Except.error (PyErr.valueError "Output format type must be either html or html5.")
  else Except.ok ()

/-- Shallow embedding of `MySTReader._check_yaml_metadata_block`.  Mirrors
the Python faithfully, including its use of truthiness on the loop result:
`yaml_block_end` is initialised to `""` and set to the `enumerate` index of
the first closing delimiter; the final guard `if not yaml_block_end` is true
both when no delimiter was found (`""`) and when the first delimiter is the
line immediately after the opener (index `0`, falsy in Python) — so index 0
is reported as "end of metadata block not found" too.  The `indexError`
branch models `content_lines[0]` on an empty line list; it is unreachable
because nonempty content always has at least one line. -/
def check_yaml_metadata_block (content : String) : Except PyErr Unit :=
  if content = "" then
    Except.error (PyErr.exception "Could not find metadata. File is empty.")
  else
    match pySplitlines content.data with
    | [] => Except.error PyErr.indexError
    | firstLine :: rest =>
      if pyRstrip firstLine ≠ "---".data then
        Except.error (PyErr.exception "Could not find metadata header \x27---\x27.")
      else
        match rest.findIdx? (fun line =>
            pyRstrip line == "---".data || pyRstrip line == "...".data) with
        | Option.none =>
          Except.error (PyErr.exception "Could not find end of metadata block.")
        | some 0 =>
          Except.error (PyErr.exception "Could not find end of metadata block.")
        | some (_ + 1) => Except.ok ()

/-! ### Reading time and metadata normalisation -/

/-- Shallow embedding of `MySTReader._calculate_reading_time`, with the word
count (the black-box `count_words_in_markdown(content)`) already taken.
`float(wordcount)` always succeeds (an int); `float(reading_speed)` may
raise `ValueError` — caught and re-raised with the configuration message —
or `TypeError` — not caught, it propagates.  A zero speed makes the division
raise an uncaught `ZeroDivisionError`, as in Python. -/
def calculate_reading_time (strFloat : String → Option ℚ) (wordcount : ℕ)
    (readingSpeed : PyVal) : Except PyErr String :=
  match pyFloatCoerce strFloat readingSpeed with
  | Except.error (PyErr.valueError _) =>
    Except.error (PyErr.valueError "READING_SPEED setting must be a number.")
  | Except.error e => Except.error e
  | Except.ok speed =>
    if speed = 0 then Except.error PyErr.zeroDivisionError
    else
      let readingTime : ℤ := ⌈(wordcount : ℚ) / speed⌉
      let timeUnit : String := if readingTime = 1 then "minute" else "minutes"
      Except.ok (toString readingTime ++ " " ++ timeUnit)

/-- The value transformation of `MySTReader._process_metadata` applied to
each metadata value before it is handed to the host hook: truthy strings
(`if value and isinstance(value, str)`) are stripped of surrounding
whitespace and then of surrounding double quotes
(`value.strip().strip('"')`); everything else is passed unchanged. -/
def normalize_meta_value : PyVal → PyVal
  | PyVal.str s =>
    if s ≠ "" then
      PyVal.str (String.mk (pyStrip (fun c => c == '\x22') (pyStrip pyIsSpace s.data)))
    else PyVal.str s
  | v => v

/-- Shallow embedding of `MySTReader._process_metadata`: lower-case each
key, normalise the value, pass the pair through the host hook
(`self.process_metadata`, an external collaborator) and store it in a fresh
dict. -/
def process_metadata (hook : String → PyVal → PyVal)
    (mystMetadata : List (String × PyVal)) : List (String × PyVal) :=
  mystMetadata.foldl (fun metadata kv =>
    let key := pyLower kv.1
    let value := normalize_meta_value kv.2
    dictInsert metadata key (hook key value)) []

/-! ### The HTML post-processor -/

/-- Models the part of a parsed BeautifulSoup `body` tag that
`_extract_contents` consumes: whether a `nav` element with `id="TOC"` is
present (and its serialisation), and the serialisation of the unwrapped body
with and without that nav element (`str(soup)` after `decompose`/`unwrap`).
BeautifulSoup itself is a black-box dependency. -/
structure BsBody where
  navTOC : Option String
  innerWithNav : String
  innerWithoutNav : String
  deriving DecidableEq

/-- Models a BeautifulSoup document as far as `_extract_contents` consumes
it: `soup.body` is `None` exactly when the parsed HTML has no `body`
element (the `html.parser` builder adds none). -/
structure Soup where
  body : Option BsBody
  deriving DecidableEq

/-- Shallow embedding of `MySTReader._extract_contents`.  The first line is
split off with `partition("\n")` and parsed by the black-box `json.loads`;
the remainder is parsed by the black-box BeautifulSoup.  When
`table_of_contents` is requested, `soup.body.find("nav", id="TOC")` is an
attribute access on `soup.body`, which raises `AttributeError` when the body
is `None`; the same happens at `soup.body.unwrap()` when the flag is off.
When no nav is found, `toc` ends up as Python `None` (the `find` result);
when the flag is off it keeps its initial value `""`. -/
def extract_contents (jsonLoads : String → Except PyErr (List (String × PyVal)))
    (parseHtml : String → Soup) (htmlOutput : String) (tableOfContents : Bool) :
    Except PyErr (String × PyVal × List (String × PyVal)) :=
  let parts := pyPartitionNl htmlOutput.data
  match jsonLoads (String.mk parts.1) with
  | Except.error e => Except.error e
  | Except.ok mystMetadata =>
    let soup := parseHtml (String.mk parts.2)
    if tableOfContents then
      match soup.body with
      | Option.none => Except.error (PyErr.attributeError "find")
      | some body =>
        match body.navTOC with
        | some nav =>
          let toc := pyReplaceStr nav "id=\x22TOC\x22" "class=\x22toc\x22"
          Except.ok (String.mk (pyStrip pyIsSpace body.innerWithoutNav.data),
            PyVal.str toc, mystMetadata)
        | Option.none =>
          Except.ok (String.mk (pyStrip pyIsSpace body.innerWithNav.data),
            PyVal.none, mystMetadata)
    else
      match soup.body with
      | Option.none => Except.error (PyErr.attributeError "unwrap")
      | some body =>
        Except.ok (String.mk (pyStrip pyIsSpace body.innerWithNav.data),
          PyVal.str "", mystMetadata)

/-! ### The pipeline orchestrator -/

/-- The Pelican settings consumed by `_create_html`.
`mystExtensionsIsList` models the `isinstance(extensions, list)` guard
(false when the host configured a non-list `MYST_EXTENSIONS` value);
`calculateReadingTimeFlag` is the truthiness of `CALCULATE_READING_TIME`;
`readingSpeed` is `settings.get("READING_SPEED", DEFAULT_READING_SPEED)`,
whose default is the int `200`. -/
structure Settings where
  mystDefaultFiles : List DefaultsRecord := []
  mystExtensionsIsList : Bool := true
  mystExtensions : List String := []
  calculateReadingTimeFlag : Bool := false
  readingSpeed : PyVal := PyVal.int 200

/-- The black-box collaborators of one `_create_html` call: the MyST
converter `main.to_html(content, config)`, `json.loads`, BeautifulSoup,
the host metadata hook `self.process_metadata`, float-literal parsing for
the builtin `float`, `count_words_in_markdown`, and the bibliography files
found by the filesystem walk `_find_bibs(source_path)`. -/
structure Host where
  convert : List String → String → String
  jsonLoads : String → Except PyErr (List (String × PyVal))
  parseHtml : String → Soup
  hook : String → PyVal → PyVal
  strFloat : String → Option ℚ
  wordCount : String → ℕ
  bibs : List String

/-- The literal directive block appended per bibliography file
(`f"\n\n{three backticks}{bibliography} {bib_file}\n{three backticks}\n\n"`). -/
def bibDirective (bibFile : String) : String :=
  "\n\n```\x7bbibliography\x7d " ++ bibFile ++ "\n```\n\n"

/-- The loop of `_create_html` rewriting the three encoded link
placeholders, in the `dict` iteration order of
`ENCODED_LINKS_TO_RAW_LINKS_MAP`. -/
def replace_encoded_links (output : String) : String :=
  ENCODED_LINKS_TO_RAW_LINKS_MAP.foldl
    (fun s kv => pyReplaceStr s kv.1 kv.2) output

/-- Shallow embedding of `MySTReader._create_html` (the pipeline; `read`
is this plus the external file open).  The first component of the result is
the parser configuration (the `enable_extensions` list of the class-level
`parser_config`) after the call: the extension merge happens on every call,
before any validation.  The second component is the pipeline outcome.
`MYST_DEFAULT_FILES` is read into `default_files` by the source and then
never used, which is mirrored here: `settings.mystDefaultFiles` is consumed
by no step. -/
def create_html (host : Host) (settings : Settings) (parserConfig : List String)
    (content : String) : List String × Except PyErr (String × List (String × PyVal)) :=
  let parserConfig :=
    if settings.mystExtensionsIsList then parserConfig ++ settings.mystExtensions
    else parserConfig
  (parserConfig,
    match check_yaml_metadata_block content with
    | Except.error e => Except.error e
    | Except.ok _ =>
      let content := host.bibs.foldl (fun acc bibFile => acc ++ bibDirective bibFile) content
      let output := host.convert parserConfig content
      match extract_contents host.jsonLoads host.parseHtml output true with
      | Except.error e => Except.error e
      | Except.ok (output, toc, mystMetadata) =>
        let output := replace_encoded_links output
        let metadata := process_metadata host.hook mystMetadata
        let metadata := dictInsert metadata "toc" (host.hook "toc" toc)
        if settings.calculateReadingTimeFlag then
          match calculate_reading_time host.strFloat (host.wordCount content)
              settings.readingSpeed with
          | Except.error e => Except.error e
          | Except.ok readingTime =>
            Except.ok (output, dictInsert metadata "reading_time"
              (host.hook "reading_time" (PyVal.str readingTime)))
        else Except.ok (output, metadata))

/-- The parser configuration after `n` pipeline calls of one reader
instance on the same document, starting from the fresh
`main.MdParserConfig()` whose `enable_extensions` list is empty. -/
def configAfterCalls (host : Host) (settings : Settings) (content : String) :
    ℕ → List String
  | 0 => []
  | n + 1 => (create_html host settings (configAfterCalls host settings content n) content).1

/-! ### Character-level views of the three link placeholders -/

/-- `encStatic` as a character list. -/
def patStatic : List Char := encStatic.data

/-- `encAttach` as a character list. -/
def patAttach : List Char := encAttach.data

/-- `encFilename` as a character list. -/
def patFilename : List Char := encFilename.data

/-- `rawStatic` as a character list. -/
def rawStaticL : List Char := rawStatic.data

/-- `rawAttach` as a character list. -/
def rawAttachL : List Char := rawAttach.data

/-- `rawFilename` as a character list. -/
def rawFilenameL : List Char := rawFilename.data

/-- Fuelled worker for `simul3`; same fuel discipline as `pyReplaceGo`. -/
def simul3Go (p1 r1 p2 r2 p3 r3 : List Char) : ℕ → List Char → List Char
  | _, [] => []
  | 0, s => s
  | fuel + 1, c :: cs =>
    if p1.isPrefixOf (c :: cs) then
      r1 ++ simul3Go p1 r1 p2 r2 p3 r3 fuel (List.drop p1.length (c :: cs))
    else if p2.isPrefixOf (c :: cs) then
      r2 ++ simul3Go p1 r1 p2 r2 p3 r3 fuel (List.drop p2.length (c :: cs))
    else if p3.isPrefixOf (c :: cs) then
      r3 ++ simul3Go p1 r1 p2 r2 p3 r3 fuel (List.drop p3.length (c :: cs))
    else c :: simul3Go p1 r1 p2 r2 p3 r3 fuel cs

/-- Simultaneous single-pass replacement of the three patterns: scan left to
right; at an occurrence of a pattern emit its replacement and skip it;
every character not part of an occurrence is copied unchanged. -/
def simul3 (p1 r1 p2 r2 p3 r3 s : List Char) : List Char :=
  simul3Go p1 r1 p2 r2 p3 r3 s.length s

/-- The single-pass rewrite of the three link placeholders, in `String`
form. -/
def linkSimul (s : String) : String :=
  String.mk (simul3 patStatic rawStaticL patAttach rawAttachL patFilename rawFilenameL s.data)

/-- Sequential link rewrite, order static/filename/attach. -/
def linkPassSFA (s : String) : String :=
  pyReplaceStr (pyReplaceStr (pyReplaceStr s encStatic rawStatic) encFilename rawFilename)
    encAttach rawAttach

/-- Sequential link rewrite, order attach/static/filename. -/
def linkPassASF (s : String) : String :=
  pyReplaceStr (pyReplaceStr (pyReplaceStr s encAttach rawAttach) encStatic rawStatic)
    encFilename rawFilename

/-- Sequential link rewrite, order attach/filename/static. -/
def linkPassAFS (s : String) : String :=
  pyReplaceStr (pyReplaceStr (pyReplaceStr s encAttach rawAttach) encFilename rawFilename)
    encStatic rawStatic

/-- Sequential link rewrite, order filename/static/attach. -/
def linkPassFSA (s : String) : String :=
  pyReplaceStr (pyReplaceStr (pyReplaceStr s encFilename rawFilename) encStatic rawStatic)
    encAttach rawAttach

/-- Sequential link rewrite, order filename/attach/static. -/
def linkPassFAS (s : String) : String :=
  pyReplaceStr (pyReplaceStr (pyReplaceStr s encFilename rawFilename) encAttach rawAttach)
    encStatic rawStatic

/-! ### Concrete collaborators for evaluating the pipeline -/

/-- A concrete parsed body with no `nav id="TOC"` element: the converter
output `<body><p>hi</p></body>` as BeautifulSoup sees it (unwrapping the
body serialises to `<p>hi</p>`). -/
def exampleBody : BsBody :=
  { navTOC := Option.none, innerWithNav := "<p>hi</p>", innerWithoutNav := "<p>hi</p>" }

/-- A concrete instantiation of the black-box collaborators: the converter
returns a fixed JSON-object line plus body, `json.loads` returns the empty
object, the parsed HTML has a body with no TOC nav, the host hook is the
identity, no float literal parses, the word count is zero and no
bibliography files are found. -/
def exampleHost : Host :=
  { convert := fun _ _ => "\x7b\x7d\n<body><p>hi</p></body>"
    jsonLoads := fun _ => Except.ok []
    parseHtml := fun _ => { body := some exampleBody }
    hook := fun _ v => v
    strFloat := fun _ => Option.none
    wordCount := fun _ => 0
    bibs := [] }

/-- A concrete document with a well-formed metadata block. -/
def exampleContent : String := "---\ntitle: Test\n---\nhi"

/-- Settings enabling one MyST extension. -/
def extSettings : Settings := { mystExtensions := ["deflist"] }

/-- A defaults record with both mutually exclusive input keys set — invalid
per `_check_input_format` and per the repository's own test
`test_from_reader_both_given`. -/
def invalidDefaultsRecord : DefaultsRecord := { reader := "markdown", fromFmt := "markdown" }

/-- Settings whose `MYST_DEFAULT_FILES` carry the invalid record. -/
def invalidDefaultsSettings : Settings := { mystDefaultFiles := [invalidDefaultsRecord] }

/-! ## Lemmas -/

/-- Boolean `isPrefixOf` agrees with the `<+:` relation. -/
theorem isPrefixOfIff {l₁ l₂ : List Char} : l₁.isPrefixOf l₂ = true ↔ l₁ <+: l₂ :=
  List.isPrefixOf_iff_prefix

/-- A prefix of a list is an infix of it. -/
theorem prefixToInfix {l₁ l₂ : List Char} (h : l₁ <+: l₂) : l₁ <:+: l₂ :=
  List.IsPrefix.isInfix h

/-- `pyReplaceGo` on the empty list is the empty list, for any fuel. -/
theorem pyReplaceGo_nil (pat rep : List Char) (fuel : ℕ) :
    pyReplaceGo pat rep fuel [] = [] := by
  cases fuel <;> rfl

/-- The fuel of `pyReplaceGo` is irrelevant once it covers the input length
(for a nonempty pattern). -/
theorem pyReplaceGo_fuel (pat rep : List Char) (hpat : pat ≠ []) :
    ∀ f₁ f₂ s, s.length ≤ f₁ → s.length ≤ f₂ →
      pyReplaceGo pat rep f₁ s = pyReplaceGo pat rep f₂ s := by
  intro f₁
  induction f₁ with
  | zero =>
    intro f₂ s h₁ _
    have hs : s = [] := List.eq_nil_of_length_eq_zero (Nat.le_zero.mp h₁)
    subst hs
    simp [pyReplaceGo_nil]
  | succ f ih =>
    intro f₂ s h₁ h₂
    match s with
    | [] => simp [pyReplaceGo_nil]
    | c :: cs =>
      match f₂ with
      | 0 => exact absurd h₂ (by simp)
      | f₂ + 1 =>
        have hplen : 1 ≤ pat.length := List.length_pos.mpr hpat
        simp only [pyReplaceGo]
        by_cases hm : pat.isPrefixOf (c :: cs)
        · rw [if_pos hm, if_pos hm]
          congr 1
          apply ih
          · rw [List.length_drop]
            simp only [List.length_cons] at h₁ ⊢
            omega
          · rw [List.length_drop]
            simp only [List.length_cons] at h₂ ⊢
            omega
        · rw [if_neg hm, if_neg hm]
          congr 1
          apply ih
          · simp only [List.length_cons] at h₁; omega
          · simp only [List.length_cons] at h₂; omega

/-- `pyReplace` on the empty list. -/
theorem pyReplace_nil (pat rep : List Char) : pyReplace pat rep [] = [] := rfl

/-- Unfolding `pyReplace` at a matching head: emit the replacement and skip
the occurrence. -/
theorem pyReplace_cons_of_pos (pat rep : List Char) (hpat : pat ≠ []) (c : Char)
    (cs : List Char) (h : pat <+: c :: cs) :
    pyReplace pat rep (c :: cs) =
      rep ++ pyReplace pat rep (List.drop pat.length (c :: cs)) := by
  have hb : pat.isPrefixOf (c :: cs) = true := isPrefixOfIff.mpr h
  have hplen : 1 ≤ pat.length := List.length_pos.mpr hpat
  show pyReplaceGo pat rep (c :: cs).length (c :: cs) = _
  simp only [List.length_cons, pyReplaceGo, hb, if_true]
  congr 1
  apply pyReplaceGo_fuel pat rep hpat
  · rw [List.length_drop]; simp only [List.length_cons]; omega
  · rw [List.length_drop]

/-- Unfolding `pyReplace` at a non-matching head: copy the character. -/
theorem pyReplace_cons_of_neg (pat rep : List Char) (c : Char) (cs : List Char)
    (h : ¬ pat <+: c :: cs) :
    pyReplace pat rep (c :: cs) = c :: pyReplace pat rep cs := by
  have hb : pat.isPrefixOf (c :: cs) = false := by
    rw [Bool.eq_false_iff]
    intro hc
    exact h (isPrefixOfIff.mp hc)
  show pyReplaceGo pat rep (c :: cs).length (c :: cs) = _
  simp only [List.length_cons, pyReplaceGo, hb, Bool.false_eq_true, if_false]
  rfl

/-- `pyReplace` copies a block in which no occurrence of the pattern
starts. -/
theorem pyReplace_copy (pat rep : List Char) :
    ∀ a t : List Char, (∀ j, j < a.length → ¬ pat <+: List.drop j (a ++ t)) →
      pyReplace pat rep (a ++ t) = a ++ pyReplace pat rep t := by
  intro a
  induction a with
  | nil => intro t _; rfl
  | cons c a₂ ih =>
    intro t h
    have h0 : ¬ pat <+: c :: (a₂ ++ t) := by
      have := h 0 (by simp)
      simpa using this
    have hrest : ∀ j, j < a₂.length → ¬ pat <+: List.drop j (a₂ ++ t) := by
      intro j hj
      have := h (j + 1) (by simpa using Nat.succ_lt_succ hj)
      simpa using this
    rw [List.cons_append, pyReplace_cons_of_neg pat rep _ _ h0, ih t hrest]
    rfl

/-- No occurrence of a nonempty pattern starts inside a block none of whose
characters equals the pattern's first character. -/
theorem noMatchInside (pat a : List Char) (hpat : pat ≠ [])
    (hhd : ∀ c ∈ a, pat.head? ≠ some c) :
    ∀ (t : List Char) (j : ℕ), j < a.length → ¬ pat <+: List.drop j (a ++ t) := by
  intro t j hj hpre
  obtain ⟨p0, pat', hp⟩ := List.exists_cons_of_ne_nil hpat
  rw [List.drop_append_of_le_length (Nat.le_of_lt hj)] at hpre
  rw [List.drop_eq_getElem_cons hj, List.cons_append, hp, List.cons_prefix_cons] at hpre
  exact hhd (a[j]) (List.getElem_mem hj) (by rw [hp, List.head?_cons, hpre.1])

/-- Replacement does not create new occurrences at the front: if a pattern
tail `q.drop j` matches at the head of the replaced string, it already
matched at the head of the original, provided no character of `q` equals the
first character of the replacement. -/
theorem noNewMatch (pat rep q : List Char) (hpat : pat ≠ []) (hrep : rep ≠ [])
    (hq : ∀ c ∈ q, rep.head? ≠ some c) :
    ∀ (s : List Char) (j : ℕ), j < q.length →
      List.drop j q <+: pyReplace pat rep s → List.drop j q <+: s := by
  intro s
  induction s with
  | nil =>
    intro j hj hpre
    rw [pyReplace_nil] at hpre
    have := List.prefix_nil.mp hpre
    have hlen := congrArg List.length this
    rw [List.length_drop] at hlen
    simp only [List.length_nil] at hlen
    omega
  | cons c cs ih =>
    intro j hj hpre
    by_cases hm : pat <+: c :: cs
    · exfalso
      rw [pyReplace_cons_of_pos pat rep hpat c cs hm] at hpre
      obtain ⟨r0, rep', hr⟩ := List.exists_cons_of_ne_nil hrep
      rw [List.drop_eq_getElem_cons hj, hr, List.cons_append,
        List.cons_prefix_cons] at hpre
      exact hq (q[j]) (List.getElem_mem hj) (by rw [hr, List.head?_cons, hpre.1])
    · rw [pyReplace_cons_of_neg pat rep c cs hm] at hpre
      rw [List.drop_eq_getElem_cons hj] at hpre ⊢
      rw [List.cons_prefix_cons] at hpre ⊢
      refine ⟨hpre.1, ?_⟩
      by_cases hj1 : j + 1 < q.length
      · exact ih (j + 1) hj1 hpre.2
      · rw [List.drop_eq_nil_of_le (by omega)]
        exact List.nil_prefix

/-- Head-of-string version of `noNewMatch`. -/
theorem noNewMatchHead (pat rep q : List Char) (hpat : pat ≠ []) (hrep : rep ≠ [])
    (hq : ∀ c ∈ q, rep.head? ≠ some c) (hqne : q ≠ []) :
    ∀ s : List Char, q <+: pyReplace pat rep s → q <+: s := by
  intro s h
  have := noNewMatch pat rep q hpat hrep hq s 0 (List.length_pos.mpr hqne)
    (by rwa [List.drop_zero])
  rwa [List.drop_zero] at this

/-- Two prefixes of the same list cannot both fail to be prefixes of each
other. -/
theorem notBothMatch (p q s : List Char) (hpq : ¬ p <+: q) (hqp : ¬ q <+: p) :
    ¬ (p <+: s ∧ q <+: s) := by
  rintro ⟨h₁, h₂⟩
  rcases Nat.le_total p.length q.length with h | h
  · exact hpq (List.prefix_of_prefix_length_le h₁ h₂ h)
  · exact hqp (List.prefix_of_prefix_length_le h₂ h₁ h)

/-- Turns decidable per-index facts about two concrete patterns into the
statement that the second pattern never matches at a position strictly
inside a block holding the first one. -/
theorem blockFact (a b : List Char)
    (hfacts : ∀ j, j < a.length →
      ¬ (b.isPrefixOf (List.drop j a) = true) ∧ ¬ ((List.drop j a).isPrefixOf b = true)) :
    ∀ (t : List Char) (j : ℕ), j < a.length → ¬ b <+: List.drop j (a ++ t) := by
  intro t j hj hb
  rw [List.drop_append_of_le_length (Nat.le_of_lt hj)] at hb
  have hd : List.drop j a <+: List.drop j a ++ t := List.prefix_append _ _
  obtain ⟨h₁, h₂⟩ := hfacts j hj
  rcases Nat.le_total b.length (List.drop j a).length with hle | hle
  · exact h₁ (isPrefixOfIff.mpr (List.prefix_of_prefix_length_le hb hd hle))
  · exact h₂ (isPrefixOfIff.mpr (List.prefix_of_prefix_length_le hd hb hle))

/-- A string containing no occurrence of the pattern is left completely
unchanged by `pyReplace`. -/
theorem pyReplace_no_occurrence (pat rep : List Char) :
    ∀ s : List Char, ¬ pat <:+: s → pyReplace pat rep s = s := by
  intro s
  induction s with
  | nil => intro _; rfl
  | cons c cs ih =>
    intro h
    have hm : ¬ pat <+: c :: cs := fun hp => h (prefixToInfix hp)
    rw [pyReplace_cons_of_neg pat rep c cs hm, ih (fun hi => h (List.infix_cons hi))]

/-- `simul3Go` on the empty list. -/
theorem simul3Go_nil (p1 r1 p2 r2 p3 r3 : List Char) (fuel : ℕ) :
    simul3Go p1 r1 p2 r2 p3 r3 fuel [] = [] := by
  cases fuel <;> rfl

/-- The fuel of `simul3Go` is irrelevant once it covers the input length. -/
theorem simul3Go_fuel (p1 r1 p2 r2 p3 r3 : List Char)
    (hp1 : p1 ≠ []) (hp2 : p2 ≠ []) (hp3 : p3 ≠ []) :
    ∀ f₁ f₂ s, s.length ≤ f₁ → s.length ≤ f₂ →
      simul3Go p1 r1 p2 r2 p3 r3 f₁ s = simul3Go p1 r1 p2 r2 p3 r3 f₂ s := by
  intro f₁
  induction f₁ with
  | zero =>
    intro f₂ s h₁ _
    have hs : s = [] := List.eq_nil_of_length_eq_zero (Nat.le_zero.mp h₁)
    subst hs
    simp [simul3Go_nil]
  | succ f ih =>
    intro f₂ s h₁ h₂
    match s with
    | [] => simp [simul3Go_nil]
    | c :: cs =>
      match f₂ with
      | 0 => exact absurd h₂ (by simp)
      | f₂ + 1 =>
        have hl1 : 1 ≤ p1.length := List.length_pos.mpr hp1
        have hl2 : 1 ≤ p2.length := List.length_pos.mpr hp2
        have hl3 : 1 ≤ p3.length := List.length_pos.mpr hp3
        simp only [List.length_cons] at h₁ h₂
        simp only [simul3Go]
        by_cases hm1 : p1.isPrefixOf (c :: cs)
        · rw [if_pos hm1, if_pos hm1]
          congr 1
          apply ih <;> · rw [List.length_drop]; simp only [List.length_cons]; omega
        · rw [if_neg hm1, if_neg hm1]
          by_cases hm2 : p2.isPrefixOf (c :: cs)
          · rw [if_pos hm2, if_pos hm2]
            congr 1
            apply ih <;> · rw [List.length_drop]; simp only [List.length_cons]; omega
          · rw [if_neg hm2, if_neg hm2]
            by_cases hm3 : p3.isPrefixOf (c :: cs)
            · rw [if_pos hm3, if_pos hm3]
              congr 1
              apply ih <;> · rw [List.length_drop]; simp only [List.length_cons]; omega
            · rw [if_neg hm3, if_neg hm3]
              congr 1
              apply ih <;> omega

/-- Unfolding `simul3` when the first pattern matches at the head. -/
theorem simul3_cons₁ (p1 r1 p2 r2 p3 r3 : List Char)
    (hp1 : p1 ≠ []) (hp2 : p2 ≠ []) (hp3 : p3 ≠ []) (c : Char) (cs : List Char)
    (h1 : p1 <+: c :: cs) :
    simul3 p1 r1 p2 r2 p3 r3 (c :: cs) =
      r1 ++ simul3 p1 r1 p2 r2 p3 r3 (List.drop p1.length (c :: cs)) := by
  have hb : p1.isPrefixOf (c :: cs) = true := isPrefixOfIff.mpr h1
  have hl1 : 1 ≤ p1.length := List.length_pos.mpr hp1
  show simul3Go p1 r1 p2 r2 p3 r3 (c :: cs).length (c :: cs) = _
  simp only [List.length_cons, simul3Go, hb, if_true]
  congr 1
  apply simul3Go_fuel p1 r1 p2 r2 p3 r3 hp1 hp2 hp3
  · rw [List.length_drop]; simp only [List.length_cons]; omega
  · rw [List.length_drop]

/-- Unfolding `simul3` when only the second pattern matches at the head. -/
theorem simul3_cons₂ (p1 r1 p2 r2 p3 r3 : List Char)
    (hp1 : p1 ≠ []) (hp2 : p2 ≠ []) (hp3 : p3 ≠ []) (c : Char) (cs : List Char)
    (hn1 : ¬ p1 <+: c :: cs) (h2 : p2 <+: c :: cs) :
    simul3 p1 r1 p2 r2 p3 r3 (c :: cs) =
      r2 ++ simul3 p1 r1 p2 r2 p3 r3 (List.drop p2.length (c :: cs)) := by
  have hb1 : p1.isPrefixOf (c :: cs) = false := by
    rw [Bool.eq_false_iff]; intro hc; exact hn1 (isPrefixOfIff.mp hc)
  have hb2 : p2.isPrefixOf (c :: cs) = true := isPrefixOfIff.mpr h2
  have hl2 : 1 ≤ p2.length := List.length_pos.mpr hp2
  show simul3Go p1 r1 p2 r2 p3 r3 (c :: cs).length (c :: cs) = _
  simp only [List.length_cons, simul3Go, hb1, hb2, Bool.false_eq_true, if_false, if_true]
  congr 1
  apply simul3Go_fuel p1 r1 p2 r2 p3 r3 hp1 hp2 hp3
  · rw [List.length_drop]; simp only [List.length_cons]; omega
  · rw [List.length_drop]

/-- Unfolding `simul3` when only the third pattern matches at the head. -/
theorem simul3_cons₃ (p1 r1 p2 r2 p3 r3 : List Char)
    (hp1 : p1 ≠ []) (hp2 : p2 ≠ []) (hp3 : p3 ≠ []) (c : Char) (cs : List Char)
    (hn1 : ¬ p1 <+: c :: cs) (hn2 : ¬ p2 <+: c :: cs) (h3 : p3 <+: c :: cs) :
    simul3 p1 r1 p2 r2 p3 r3 (c :: cs) =
      r3 ++ simul3 p1 r1 p2 r2 p3 r3 (List.drop p3.length (c :: cs)) := by
  have hb1 : p1.isPrefixOf (c :: cs) = false := by
    rw [Bool.eq_false_iff]; intro hc; exact hn1 (isPrefixOfIff.mp hc)
  have hb2 : p2.isPrefixOf (c :: cs) = false := by
    rw [Bool.eq_false_iff]; intro hc; exact hn2 (isPrefixOfIff.mp hc)
  have hb3 : p3.isPrefixOf (c :: cs) = true := isPrefixOfIff.mpr h3
  have hl3 : 1 ≤ p3.length := List.length_pos.mpr hp3
  show simul3Go p1 r1 p2 r2 p3 r3 (c :: cs).length (c :: cs) = _
  simp only [List.length_cons, simul3Go, hb1, hb2, hb3, Bool.false_eq_true, if_false,
    if_true]
  congr 1
  apply simul3Go_fuel p1 r1 p2 r2 p3 r3 hp1 hp2 hp3
  · rw [List.length_drop]; simp only [List.length_cons]; omega
  · rw [List.length_drop]

/-- Unfolding `simul3` when no pattern matches at the head. -/
theorem simul3_cons_neg (p1 r1 p2 r2 p3 r3 : List Char) (c : Char) (cs : List Char)
    (hn1 : ¬ p1 <+: c :: cs) (hn2 : ¬ p2 <+: c :: cs) (hn3 : ¬ p3 <+: c :: cs) :
    simul3 p1 r1 p2 r2 p3 r3 (c :: cs) = c :: simul3 p1 r1 p2 r2 p3 r3 cs := by
  have hb1 : p1.isPrefixOf (c :: cs) = false := by
    rw [Bool.eq_false_iff]; intro hc; exact hn1 (isPrefixOfIff.mp hc)
  have hb2 : p2.isPrefixOf (c :: cs) = false := by
    rw [Bool.eq_false_iff]; intro hc; exact hn2 (isPrefixOfIff.mp hc)
  have hb3 : p3.isPrefixOf (c :: cs) = false := by
    rw [Bool.eq_false_iff]; intro hc; exact hn3 (isPrefixOfIff.mp hc)
  show simul3Go p1 r1 p2 r2 p3 r3 (c :: cs).length (c :: cs) = _
  simp only [List.length_cons, simul3Go, hb1, hb2, hb3, Bool.false_eq_true, if_false]
  rfl

/-- Swapping the first two patterns of `simul3` does not change the result
when neither of the two is a prefix of the other. -/
theorem simul3_swap₁₂ (p1 r1 p2 r2 p3 r3 : List Char)
    (hp1 : p1 ≠ []) (hp2 : p2 ≠ []) (hp3 : p3 ≠ [])
    (h12 : ¬ p1 <+: p2) (h21 : ¬ p2 <+: p1) :
    ∀ s, simul3 p1 r1 p2 r2 p3 r3 s = simul3 p2 r2 p1 r1 p3 r3 s := by
  have main : ∀ n s, s.length ≤ n →
      simul3 p1 r1 p2 r2 p3 r3 s = simul3 p2 r2 p1 r1 p3 r3 s := by
    intro n
    induction n with
    | zero =>
      intro s hs
      have : s = [] := List.eq_nil_of_length_eq_zero (Nat.le_zero.mp hs)
      subst this; rfl
    | succ m ih =>
      intro s hs
      match s with
      | [] => rfl
      | c :: cs =>
        simp only [List.length_cons] at hs
        by_cases hm1 : p1 <+: c :: cs
        · have hm2 : ¬ p2 <+: c :: cs := fun hc => notBothMatch p1 p2 _ h12 h21 ⟨hm1, hc⟩
          rw [simul3_cons₁ p1 r1 p2 r2 p3 r3 hp1 hp2 hp3 c cs hm1,
            simul3_cons₂ p2 r2 p1 r1 p3 r3 hp2 hp1 hp3 c cs hm2 hm1]
          congr 1
          apply ih
          rw [List.length_drop]
          have := List.length_pos.mpr hp1
          simp only [List.length_cons]
          omega
        · by_cases hm2 : p2 <+: c :: cs
          · rw [simul3_cons₂ p1 r1 p2 r2 p3 r3 hp1 hp2 hp3 c cs hm1 hm2,
              simul3_cons₁ p2 r2 p1 r1 p3 r3 hp2 hp1 hp3 c cs hm2]
            congr 1
            apply ih
            rw [List.length_drop]
            have := List.length_pos.mpr hp2
            simp only [List.length_cons]
            omega
          · by_cases hm3 : p3 <+: c :: cs
            · rw [simul3_cons₃ p1 r1 p2 r2 p3 r3 hp1 hp2 hp3 c cs hm1 hm2 hm3,
                simul3_cons₃ p2 r2 p1 r1 p3 r3 hp2 hp1 hp3 c cs hm2 hm1 hm3]
              congr 1
              apply ih
              rw [List.length_drop]
              have := List.length_pos.mpr hp3
              simp only [List.length_cons]
              omega
            · rw [simul3_cons_neg p1 r1 p2 r2 p3 r3 c cs hm1 hm2 hm3,
                simul3_cons_neg p2 r2 p1 r1 p3 r3 c cs hm2 hm1 hm3]
              congr 1
              apply ih
              omega
  exact fun s => main s.length s (Nat.le_refl _)

/-- `pyReplace` on a string starting with a full occurrence of the
pattern. -/
theorem pyReplace_head_match (pat rep : List Char) (hpat : pat ≠ []) (t : List Char) :
    pyReplace pat rep (pat ++ t) = rep ++ pyReplace pat rep t := by
  obtain ⟨p0, ptl, hp⟩ := List.exists_cons_of_ne_nil hpat
  have hpre : pat <+: p0 :: (ptl ++ t) := by
    rw [← List.cons_append, ← hp]
    exact List.prefix_append _ _
  calc pyReplace pat rep (pat ++ t)
      = pyReplace pat rep (p0 :: (ptl ++ t)) := by rw [hp, List.cons_append]
    _ = rep ++ pyReplace pat rep (List.drop pat.length (p0 :: (ptl ++ t))) :=
        pyReplace_cons_of_pos pat rep hpat _ _ hpre
    _ = rep ++ pyReplace pat rep t := by
        rw [← List.cons_append, ← hp, List.drop_left]

/-- `simul3` on a string starting with a full occurrence of the first
pattern. -/
theorem simul3_head₁ (p1 r1 p2 r2 p3 r3 : List Char)
    (hp1 : p1 ≠ []) (hp2 : p2 ≠ []) (hp3 : p3 ≠ []) (t : List Char) :
    simul3 p1 r1 p2 r2 p3 r3 (p1 ++ t) = r1 ++ simul3 p1 r1 p2 r2 p3 r3 t := by
  obtain ⟨p0, ptl, hp⟩ := List.exists_cons_of_ne_nil hp1
  have hpre : p1 <+: p0 :: (ptl ++ t) := by
    rw [← List.cons_append, ← hp]
    exact List.prefix_append _ _
  calc simul3 p1 r1 p2 r2 p3 r3 (p1 ++ t)
      = simul3 p1 r1 p2 r2 p3 r3 (p0 :: (ptl ++ t)) := by rw [hp, List.cons_append]
    _ = r1 ++ simul3 p1 r1 p2 r2 p3 r3 (List.drop p1.length (p0 :: (ptl ++ t))) :=
        simul3_cons₁ p1 r1 p2 r2 p3 r3 hp1 hp2 hp3 _ _ hpre
    _ = r1 ++ simul3 p1 r1 p2 r2 p3 r3 t := by
        rw [← List.cons_append, ← hp, List.drop_left]

/-- `simul3` on a string starting with a full occurrence of the second
pattern, the first not matching there. -/
theorem simul3_head₂ (p1 r1 p2 r2 p3 r3 : List Char)
    (hp1 : p1 ≠ []) (hp2 : p2 ≠ []) (hp3 : p3 ≠ []) (t : List Char)
    (hn1 : ¬ p1 <+: p2 ++ t) :
    simul3 p1 r1 p2 r2 p3 r3 (p2 ++ t) = r2 ++ simul3 p1 r1 p2 r2 p3 r3 t := by
  obtain ⟨p0, ptl, hp⟩ := List.exists_cons_of_ne_nil hp2
  have hpre : p2 <+: p0 :: (ptl ++ t) := by
    rw [← List.cons_append, ← hp]
    exact List.prefix_append _ _
  have hn1c : ¬ p1 <+: p0 :: (ptl ++ t) := by
    rw [← List.cons_append, ← hp]
    exact hn1
  calc simul3 p1 r1 p2 r2 p3 r3 (p2 ++ t)
      = simul3 p1 r1 p2 r2 p3 r3 (p0 :: (ptl ++ t)) := by rw [hp, List.cons_append]
    _ = r2 ++ simul3 p1 r1 p2 r2 p3 r3 (List.drop p2.length (p0 :: (ptl ++ t))) :=
        simul3_cons₂ p1 r1 p2 r2 p3 r3 hp1 hp2 hp3 _ _ hn1c hpre
    _ = r2 ++ simul3 p1 r1 p2 r2 p3 r3 t := by
        rw [← List.cons_append, ← hp, List.drop_left]

/-- `simul3` on a string starting with a full occurrence of the third
pattern, the first two not matching there. -/
theorem simul3_head₃ (p1 r1 p2 r2 p3 r3 : List Char)
    (hp1 : p1 ≠ []) (hp2 : p2 ≠ []) (hp3 : p3 ≠ []) (t : List Char)
    (hn1 : ¬ p1 <+: p3 ++ t) (hn2 : ¬ p2 <+: p3 ++ t) :
    simul3 p1 r1 p2 r2 p3 r3 (p3 ++ t) = r3 ++ simul3 p1 r1 p2 r2 p3 r3 t := by
  obtain ⟨p0, ptl, hp⟩ := List.exists_cons_of_ne_nil hp3
  have hpre : p3 <+: p0 :: (ptl ++ t) := by
    rw [← List.cons_append, ← hp]
    exact List.prefix_append _ _
  have hn1c : ¬ p1 <+: p0 :: (ptl ++ t) := by
    rw [← List.cons_append, ← hp]
    exact hn1
  have hn2c : ¬ p2 <+: p0 :: (ptl ++ t) := by
    rw [← List.cons_append, ← hp]
    exact hn2
  calc simul3 p1 r1 p2 r2 p3 r3 (p3 ++ t)
      = simul3 p1 r1 p2 r2 p3 r3 (p0 :: (ptl ++ t)) := by rw [hp, List.cons_append]
    _ = r3 ++ simul3 p1 r1 p2 r2 p3 r3 (List.drop p3.length (p0 :: (ptl ++ t))) :=
        simul3_cons₃ p1 r1 p2 r2 p3 r3 hp1 hp2 hp3 _ _ hn1c hn2c hpre
    _ = r3 ++ simul3 p1 r1 p2 r2 p3 r3 t := by
        rw [← List.cons_append, ← hp, List.drop_left]

/-- Master commutation lemma: three sequential `pyReplace` passes (innermost
pass `z`, then `y`, then `x`) equal the simultaneous single-pass scan,
provided no pattern ever matches overlapping a block holding another
pattern (`B··`), no pattern's first character occurs in a replacement
(`H··`), and no replacement's first character occurs in a pattern
(`N··`). -/
theorem seqPasses_eq_simul3 (x rx y ry z rz : List Char)
    (hx : x ≠ []) (hy : y ≠ []) (hz : z ≠ [])
    (hry : ry ≠ []) (hrz : rz ≠ [])
    (Bxy : ∀ (t : List Char) (j : ℕ), j < x.length → ¬ y <+: List.drop j (x ++ t))
    (Bxz : ∀ (t : List Char) (j : ℕ), j < x.length → ¬ z <+: List.drop j (x ++ t))
    (Byx : ∀ (t : List Char) (j : ℕ), j < y.length → ¬ x <+: List.drop j (y ++ t))
    (Byz : ∀ (t : List Char) (j : ℕ), j < y.length → ¬ z <+: List.drop j (y ++ t))
    (Bzx : ∀ (t : List Char) (j : ℕ), j < z.length → ¬ x <+: List.drop j (z ++ t))
    (Bzy : ∀ (t : List Char) (j : ℕ), j < z.length → ¬ y <+: List.drop j (z ++ t))
    (HyRz : ∀ c ∈ rz, y.head? ≠ some c)
    (HxRz : ∀ c ∈ rz, x.head? ≠ some c)
    (HxRy : ∀ c ∈ ry, x.head? ≠ some c)
    (NyRz : ∀ c ∈ y, rz.head? ≠ some c)
    (NxRz : ∀ c ∈ x, rz.head? ≠ some c)
    (NxRy : ∀ c ∈ x, ry.head? ≠ some c) :
    ∀ s, pyReplace x rx (pyReplace y ry (pyReplace z rz s)) =
      simul3 x rx y ry z rz s := by
  have main : ∀ n s, s.length ≤ n →
      pyReplace x rx (pyReplace y ry (pyReplace z rz s)) = simul3 x rx y ry z rz s := by
    intro n
    induction n with
    | zero =>
      intro s hs
      have : s = [] := List.eq_nil_of_length_eq_zero (Nat.le_zero.mp hs)
      subst this; rfl
    | succ m ih =>
      intro s hs
      match s with
      | [] => rfl
      | c :: cs =>
        simp only [List.length_cons] at hs
        by_cases hmz : z <+: c :: cs
        · obtain ⟨s₂, hs₂⟩ := hmz
          have hbound : s₂.length ≤ m := by
            have := congrArg List.length hs₂
            simp only [List.length_append, List.length_cons] at this
            have := List.length_pos.mpr hz
            omega
          have hnx : ¬ x <+: z ++ s₂ := by
            have := Bzx s₂ 0 (List.length_pos.mpr hz)
            rwa [List.drop_zero] at this
          have hny : ¬ y <+: z ++ s₂ := by
            have := Bzy s₂ 0 (List.length_pos.mpr hz)
            rwa [List.drop_zero] at this
          rw [← hs₂]
          rw [pyReplace_head_match z rz hz s₂]
          rw [pyReplace_copy y ry rz (pyReplace z rz s₂)
            (fun j hj => noMatchInside y rz hy HyRz _ j hj)]
          rw [pyReplace_copy x rx rz (pyReplace y ry (pyReplace z rz s₂))
            (fun j hj => noMatchInside x rz hx HxRz _ j hj)]
          rw [ih s₂ hbound]
          rw [simul3_head₃ x rx y ry z rz hx hy hz s₂ hnx hny]
        · by_cases hmy : y <+: c :: cs
          · obtain ⟨s₂, hs₂⟩ := hmy
            have hbound : s₂.length ≤ m := by
              have := congrArg List.length hs₂
              simp only [List.length_append, List.length_cons] at this
              have := List.length_pos.mpr hy
              omega
            have hnx : ¬ x <+: y ++ s₂ := by
              have := Byx s₂ 0 (List.length_pos.mpr hy)
              rwa [List.drop_zero] at this
            rw [← hs₂]
            rw [pyReplace_copy z rz y s₂ (fun j hj => Byz s₂ j hj)]
            rw [pyReplace_head_match y ry hy (pyReplace z rz s₂)]
            rw [pyReplace_copy x rx ry (pyReplace y ry (pyReplace z rz s₂))
              (fun j hj => noMatchInside x ry hx HxRy _ j hj)]
            rw [ih s₂ hbound]
            rw [simul3_head₂ x rx y ry z rz hx hy hz s₂ hnx]
          · by_cases hmx : x <+: c :: cs
            · obtain ⟨s₂, hs₂⟩ := hmx
              have hbound : s₂.length ≤ m := by
                have := congrArg List.length hs₂
                simp only [List.length_append, List.length_cons] at this
                have := List.length_pos.mpr hx
                omega
              rw [← hs₂]
              rw [pyReplace_copy z rz x s₂ (fun j hj => Bxz s₂ j hj)]
              rw [pyReplace_copy y ry x (pyReplace z rz s₂)
                (fun j hj => Bxy (pyReplace z rz s₂) j hj)]
              rw [pyReplace_head_match x rx hx (pyReplace y ry (pyReplace z rz s₂))]
              rw [ih s₂ hbound]
              rw [simul3_head₁ x rx y ry z rz hx hy hz s₂]
            · have h1 : pyReplace z rz (c :: cs) = c :: pyReplace z rz cs :=
                pyReplace_cons_of_neg z rz c cs hmz
              have h2 : ¬ y <+: c :: pyReplace z rz cs := by
                intro hcon
                exact hmy (noNewMatchHead z rz y hz hrz NyRz hy (c :: cs) (h1 ▸ hcon))
              have h3 : pyReplace y ry (pyReplace z rz (c :: cs)) =
                  c :: pyReplace y ry (pyReplace z rz cs) := by
                rw [h1]
                exact pyReplace_cons_of_neg y ry c (pyReplace z rz cs) h2
              have h4 : ¬ x <+: c :: pyReplace y ry (pyReplace z rz cs) := by
                intro hcon
                have hx1 : x <+: pyReplace y ry (pyReplace z rz (c :: cs)) := h3 ▸ hcon
                exact hmx (noNewMatchHead z rz x hz hrz NxRz hx (c :: cs)
                  (noNewMatchHead y ry x hy hry NxRy hx (pyReplace z rz (c :: cs)) hx1))
              rw [h3, pyReplace_cons_of_neg x rx c (pyReplace y ry (pyReplace z rz cs)) h4,
                ih cs (by omega), simul3_cons_neg x rx y ry z rz c cs hmx hmy hmz]
  exact fun s => main s.length s (Nat.le_refl _)

/-- Swapping the last two patterns of `simul3` does not change the result
when neither of the two is a prefix of the other. -/
theorem simul3_swap₂₃ (p1 r1 p2 r2 p3 r3 : List Char)
    (hp1 : p1 ≠ []) (hp2 : p2 ≠ []) (hp3 : p3 ≠ [])
    (h23 : ¬ p2 <+: p3) (h32 : ¬ p3 <+: p2) :
    ∀ s, simul3 p1 r1 p2 r2 p3 r3 s = simul3 p1 r1 p3 r3 p2 r2 s := by
  have main : ∀ n s, s.length ≤ n →
      simul3 p1 r1 p2 r2 p3 r3 s = simul3 p1 r1 p3 r3 p2 r2 s := by
    intro n
    induction n with
    | zero =>
      intro s hs
      have : s = [] := List.eq_nil_of_length_eq_zero (Nat.le_zero.mp hs)
      subst this; rfl
    | succ m ih =>
      intro s hs
      match s with
      | [] => rfl
      | c :: cs =>
        simp only [List.length_cons] at hs
        by_cases hm1 : p1 <+: c :: cs
        · rw [simul3_cons₁ p1 r1 p2 r2 p3 r3 hp1 hp2 hp3 c cs hm1,
            simul3_cons₁ p1 r1 p3 r3 p2 r2 hp1 hp3 hp2 c cs hm1]
          congr 1
          apply ih
          rw [List.length_drop]
          have := List.length_pos.mpr hp1
          simp only [List.length_cons]
          omega
        · by_cases hm2 : p2 <+: c :: cs
          · have hm3 : ¬ p3 <+: c :: cs := fun hc => notBothMatch p2 p3 _ h23 h32 ⟨hm2, hc⟩
            rw [simul3_cons₂ p1 r1 p2 r2 p3 r3 hp1 hp2 hp3 c cs hm1 hm2,
              simul3_cons₃ p1 r1 p3 r3 p2 r2 hp1 hp3 hp2 c cs hm1 hm3 hm2]
            congr 1
            apply ih
            rw [List.length_drop]
            have := List.length_pos.mpr hp2
            simp only [List.length_cons]
            omega
          · by_cases hm3 : p3 <+: c :: cs
            · rw [simul3_cons₃ p1 r1 p2 r2 p3 r3 hp1 hp2 hp3 c cs hm1 hm2 hm3,
                simul3_cons₂ p1 r1 p3 r3 p2 r2 hp1 hp3 hp2 c cs hm1 hm3]
              congr 1
              apply ih
              rw [List.length_drop]
              have := List.length_pos.mpr hp3
              simp only [List.length_cons]
              omega
            · rw [simul3_cons_neg p1 r1 p2 r2 p3 r3 c cs hm1 hm2 hm3,
                simul3_cons_neg p1 r1 p3 r3 p2 r2 c cs hm1 hm3 hm2]
              congr 1
              apply ih
              omega
  exact fun s => main s.length s (Nat.le_refl _)

/-- Overlap facts, static block vs attach pattern. -/
theorem factSA : ∀ j, j < patStatic.length →
    ¬ (patAttach.isPrefixOf (List.drop j patStatic) = true) ∧
    ¬ ((List.drop j patStatic).isPrefixOf patAttach = true) := by decide

/-- Overlap facts, static block vs filename pattern. -/
theorem factSF : ∀ j, j < patStatic.length →
    ¬ (patFilename.isPrefixOf (List.drop j patStatic) = true) ∧
    ¬ ((List.drop j patStatic).isPrefixOf patFilename = true) := by decide

/-- Overlap facts, attach block vs static pattern. -/
theorem factAS : ∀ j, j < patAttach.length →
    ¬ (patStatic.isPrefixOf (List.drop j patAttach) = true) ∧
    ¬ ((List.drop j patAttach).isPrefixOf patStatic = true) := by decide

/-- Overlap facts, attach block vs filename pattern. -/
theorem factAF : ∀ j, j < patAttach.length →
    ¬ (patFilename.isPrefixOf (List.drop j patAttach) = true) ∧
    ¬ ((List.drop j patAttach).isPrefixOf patFilename = true) := by decide

/-- Overlap facts, filename block vs static pattern. -/
theorem factFS : ∀ j, j < patFilename.length →
    ¬ (patStatic.isPrefixOf (List.drop j patFilename) = true) ∧
    ¬ ((List.drop j patFilename).isPrefixOf patStatic = true) := by decide

/-- Overlap facts, filename block vs attach pattern. -/
theorem factFA : ∀ j, j < patFilename.length →
    ¬ (patAttach.isPrefixOf (List.drop j patFilename) = true) ∧
    ¬ ((List.drop j patFilename).isPrefixOf patAttach = true) := by decide

/-- The attach pattern never matches overlapping a static-pattern block. -/
theorem blockSA : ∀ (t : List Char) (j : ℕ), j < patStatic.length →
    ¬ patAttach <+: List.drop j (patStatic ++ t) := blockFact _ _ factSA

/-- The filename pattern never matches overlapping a static-pattern block. -/
theorem blockSF : ∀ (t : List Char) (j : ℕ), j < patStatic.length →
    ¬ patFilename <+: List.drop j (patStatic ++ t) := blockFact _ _ factSF

/-- The static pattern never matches overlapping an attach-pattern block. -/
theorem blockAS : ∀ (t : List Char) (j : ℕ), j < patAttach.length →
    ¬ patStatic <+: List.drop j (patAttach ++ t) := blockFact _ _ factAS

/-- The filename pattern never matches overlapping an attach-pattern block. -/
theorem blockAF : ∀ (t : List Char) (j : ℕ), j < patAttach.length →
    ¬ patFilename <+: List.drop j (patAttach ++ t) := blockFact _ _ factAF

/-- The static pattern never matches overlapping a filename-pattern block. -/
theorem blockFS : ∀ (t : List Char) (j : ℕ), j < patFilename.length →
    ¬ patStatic <+: List.drop j (patFilename ++ t) := blockFact _ _ factFS

/-- The attach pattern never matches overlapping a filename-pattern block. -/
theorem blockFA : ∀ (t : List Char) (j : ℕ), j < patFilename.length →
    ¬ patAttach <+: List.drop j (patFilename ++ t) := blockFact _ _ factFA

/-- The static pattern's head `%` occurs in no replacement. -/
theorem headS_notin_raws :
    (∀ c ∈ rawStaticL, patStatic.head? ≠ some c) ∧
    (∀ c ∈ rawAttachL, patStatic.head? ≠ some c) ∧
    (∀ c ∈ rawFilenameL, patStatic.head? ≠ some c) := by decide

/-- The attach pattern's head `%` occurs in no replacement. -/
theorem headA_notin_raws :
    (∀ c ∈ rawStaticL, patAttach.head? ≠ some c) ∧
    (∀ c ∈ rawAttachL, patAttach.head? ≠ some c) ∧
    (∀ c ∈ rawFilenameL, patAttach.head? ≠ some c) := by decide

/-- The filename pattern's head `%` occurs in no replacement. -/
theorem headF_notin_raws :
    (∀ c ∈ rawStaticL, patFilename.head? ≠ some c) ∧
    (∀ c ∈ rawAttachL, patFilename.head? ≠ some c) ∧
    (∀ c ∈ rawFilenameL, patFilename.head? ≠ some c) := by decide

/-- No replacement's head (an opening brace) occurs in the static pattern. -/
theorem rawHeads_notin_patS :
    (∀ c ∈ patStatic, rawStaticL.head? ≠ some c) ∧
    (∀ c ∈ patStatic, rawAttachL.head? ≠ some c) ∧
    (∀ c ∈ patStatic, rawFilenameL.head? ≠ some c) := by decide

/-- No replacement's head (an opening brace) occurs in the attach pattern. -/
theorem rawHeads_notin_patA :
    (∀ c ∈ patAttach, rawStaticL.head? ≠ some c) ∧
    (∀ c ∈ patAttach, rawAttachL.head? ≠ some c) ∧
    (∀ c ∈ patAttach, rawFilenameL.head? ≠ some c) := by decide

/-- No replacement's head (an opening brace) occurs in the filename
pattern. -/
theorem rawHeads_notin_patF :
    (∀ c ∈ patFilename, rawStaticL.head? ≠ some c) ∧
    (∀ c ∈ patFilename, rawAttachL.head? ≠ some c) ∧
    (∀ c ∈ patFilename, rawFilenameL.head? ≠ some c) := by decide

/-- No pattern is a prefix of another. -/
theorem patsNotPre :
    (¬ patStatic <+: patAttach) ∧ (¬ patAttach <+: patStatic) ∧
    (¬ patStatic <+: patFilename) ∧ (¬ patFilename <+: patStatic) ∧
    (¬ patAttach <+: patFilename) ∧ (¬ patFilename <+: patAttach) := by decide

/-- The canonical single pass, spelled with the patterns in map order. -/
theorem listSAF_eq (s : List Char) :
    pyReplace patFilename rawFilenameL
      (pyReplace patAttach rawAttachL (pyReplace patStatic rawStaticL s)) =
    simul3 patStatic rawStaticL patAttach rawAttachL patFilename rawFilenameL s := by
  have h := seqPasses_eq_simul3 patFilename rawFilenameL patAttach rawAttachL
    patStatic rawStaticL (by decide) (by decide) (by decide) (by decide) (by decide)
    blockFA blockFS blockAF blockAS blockSF blockSA
    headA_notin_raws.1 headF_notin_raws.1 headF_notin_raws.2.1
    rawHeads_notin_patA.1 rawHeads_notin_patF.1 rawHeads_notin_patF.2.1 s
  rw [h]
  rw [simul3_swap₁₂ patFilename rawFilenameL patAttach rawAttachL patStatic rawStaticL
    (by decide) (by decide) (by decide) patsNotPre.2.2.2.2.2 patsNotPre.2.2.2.2.1 s]
  rw [simul3_swap₂₃ patAttach rawAttachL patFilename rawFilenameL patStatic rawStaticL
    (by decide) (by decide) (by decide) patsNotPre.2.2.2.1 patsNotPre.2.2.1 s]
  rw [simul3_swap₁₂ patAttach rawAttachL patStatic rawStaticL patFilename rawFilenameL
    (by decide) (by decide) (by decide) patsNotPre.2.1 patsNotPre.1 s]

/-- Pass order static/filename/attach agrees with the canonical pass. -/
theorem listSFA_eq (s : List Char) :
    pyReplace patAttach rawAttachL
      (pyReplace patFilename rawFilenameL (pyReplace patStatic rawStaticL s)) =
    simul3 patStatic rawStaticL patAttach rawAttachL patFilename rawFilenameL s := by
  have h := seqPasses_eq_simul3 patAttach rawAttachL patFilename rawFilenameL
    patStatic rawStaticL (by decide) (by decide) (by decide) (by decide) (by decide)
    blockAF blockAS blockFA blockFS blockSA blockSF
    headF_notin_raws.1 headA_notin_raws.1 headA_notin_raws.2.2
    rawHeads_notin_patF.1 rawHeads_notin_patA.1 rawHeads_notin_patA.2.2 s
  rw [h]
  rw [simul3_swap₂₃ patAttach rawAttachL patFilename rawFilenameL patStatic rawStaticL
    (by decide) (by decide) (by decide) patsNotPre.2.2.2.1 patsNotPre.2.2.1 s]
  rw [simul3_swap₁₂ patAttach rawAttachL patStatic rawStaticL patFilename rawFilenameL
    (by decide) (by decide) (by decide) patsNotPre.2.1 patsNotPre.1 s]

/-- Pass order attach/static/filename agrees with the canonical pass. -/
theorem listASF_eq (s : List Char) :
    pyReplace patFilename rawFilenameL
      (pyReplace patStatic rawStaticL (pyReplace patAttach rawAttachL s)) =
    simul3 patStatic rawStaticL patAttach rawAttachL patFilename rawFilenameL s := by
  have h := seqPasses_eq_simul3 patFilename rawFilenameL patStatic rawStaticL
    patAttach rawAttachL (by decide) (by decide) (by decide) (by decide) (by decide)
    blockFS blockFA blockSF blockSA blockAF blockAS
    headS_notin_raws.2.1 headF_notin_raws.2.1 headF_notin_raws.1
    rawHeads_notin_patS.2.1 rawHeads_notin_patF.2.1 rawHeads_notin_patF.1 s
  rw [h]
  rw [simul3_swap₁₂ patFilename rawFilenameL patStatic rawStaticL patAttach rawAttachL
    (by decide) (by decide) (by decide) patsNotPre.2.2.2.1 patsNotPre.2.2.1 s]
  rw [simul3_swap₂₃ patStatic rawStaticL patFilename rawFilenameL patAttach rawAttachL
    (by decide) (by decide) (by decide) patsNotPre.2.2.2.2.2 patsNotPre.2.2.2.2.1 s]

/-- Pass order attach/filename/static agrees with the canonical pass. -/
theorem listAFS_eq (s : List Char) :
    pyReplace patStatic rawStaticL
      (pyReplace patFilename rawFilenameL (pyReplace patAttach rawAttachL s)) =
    simul3 patStatic rawStaticL patAttach rawAttachL patFilename rawFilenameL s := by
  have h := seqPasses_eq_simul3 patStatic rawStaticL patFilename rawFilenameL
    patAttach rawAttachL (by decide) (by decide) (by decide) (by decide) (by decide)
    blockSF blockSA blockFS blockFA blockAS blockAF
    headF_notin_raws.2.1 headS_notin_raws.2.1 headS_notin_raws.2.2
    rawHeads_notin_patF.2.1 rawHeads_notin_patS.2.1 rawHeads_notin_patS.2.2 s
  rw [h]
  rw [simul3_swap₂₃ patStatic rawStaticL patFilename rawFilenameL patAttach rawAttachL
    (by decide) (by decide) (by decide) patsNotPre.2.2.2.2.2 patsNotPre.2.2.2.2.1 s]

/-- Pass order filename/static/attach agrees with the canonical pass. -/
theorem listFSA_eq (s : List Char) :
    pyReplace patAttach rawAttachL
      (pyReplace patStatic rawStaticL (pyReplace patFilename rawFilenameL s)) =
    simul3 patStatic rawStaticL patAttach rawAttachL patFilename rawFilenameL s := by
  have h := seqPasses_eq_simul3 patAttach rawAttachL patStatic rawStaticL
    patFilename rawFilenameL (by decide) (by decide) (by decide) (by decide) (by decide)
    blockAS blockAF blockSA blockSF blockFA blockFS
    headS_notin_raws.2.2 headA_notin_raws.2.2 headA_notin_raws.1
    rawHeads_notin_patS.2.2 rawHeads_notin_patA.2.2 rawHeads_notin_patA.1 s
  rw [h]
  rw [simul3_swap₁₂ patAttach rawAttachL patStatic rawStaticL patFilename rawFilenameL
    (by decide) (by decide) (by decide) patsNotPre.2.1 patsNotPre.1 s]

/-- Pass order filename/attach/static agrees with the canonical pass. -/
theorem listFAS_eq (s : List Char) :
    pyReplace patStatic rawStaticL
      (pyReplace patAttach rawAttachL (pyReplace patFilename rawFilenameL s)) =
    simul3 patStatic rawStaticL patAttach rawAttachL patFilename rawFilenameL s := by
  exact seqPasses_eq_simul3 patStatic rawStaticL patAttach rawAttachL
    patFilename rawFilenameL (by decide) (by decide) (by decide) (by decide) (by decide)
    blockSA blockSF blockAS blockAF blockFS blockFA
    headA_notin_raws.2.2 headS_notin_raws.2.2 headS_notin_raws.2.1
    rawHeads_notin_patA.2.2 rawHeads_notin_patS.2.2 rawHeads_notin_patS.2.1 s

/-! ### Dictionary lemmas -/

/-- One-step unfolding of `dictLookup`. -/
theorem dictLookup_cons (kv : String × PyVal) (rest : List (String × PyVal))
    (k : String) :
    dictLookup (kv :: rest) k = if kv.1 = k then some kv.2 else dictLookup rest k := rfl

/-- Updating one key of an association list leaves lookups of other keys
unchanged. -/
theorem lookup_map_update (d : List (String × PyVal)) (k k₂ : String) (v : PyVal)
    (h : k ≠ k₂) :
    dictLookup (d.map (fun kv => if kv.1 == k₂ then (k₂, v) else kv)) k =
      dictLookup d k := by
  induction d with
  | nil => rfl
  | cons kv rest ih =>
    rw [List.map_cons, dictLookup_cons, dictLookup_cons, ih]
    by_cases hk : kv.1 = k₂
    · have hf : (if (kv.1 == k₂) = true then (k₂, v) else kv) = (k₂, v) :=
        if_pos (by simpa using hk)
      rw [hf]
      rw [if_neg (show ¬ k₂ = k from fun hc => h hc.symm),
        if_neg (show ¬ kv.1 = k from fun hc => h (hk ▸ hc).symm)]
    · have hf : (if (kv.1 == k₂) = true then (k₂, v) else kv) = kv :=
        if_neg (by simpa using hk)
      rw [hf]

/-- Appending an entry with a different key leaves lookups unchanged. -/
theorem lookup_append_single (d : List (String × PyVal)) (k k₂ : String) (v : PyVal)
    (h : k ≠ k₂) :
    dictLookup (d ++ [(k₂, v)]) k = dictLookup d k := by
  induction d with
  | nil =>
    show dictLookup [(k₂, v)] k = Option.none
    rw [dictLookup_cons]
    rw [if_neg (show ¬ k₂ = k from fun hc => h hc.symm)]
    rfl
  | cons kv rest ih =>
    rw [List.cons_append, dictLookup_cons, dictLookup_cons, ih]

/-- `dictInsert` at a key does not affect lookups of other keys. -/
theorem lookup_dictInsert_ne (d : List (String × PyVal)) (k k₂ : String) (v : PyVal)
    (h : k ≠ k₂) :
    dictLookup (dictInsert d k₂ v) k = dictLookup d k := by
  unfold dictInsert
  split
  · exact lookup_map_update d k k₂ v h
  · exact lookup_append_single d k k₂ v h

/-- Updating a present key makes its lookup return the new value. -/
theorem lookup_map_update_self (d : List (String × PyVal)) (k : String) (v : PyVal)
    (hmem : d.any (fun kv => kv.1 == k) = true) :
    dictLookup (d.map (fun kv => if kv.1 == k then (k, v) else kv)) k = some v := by
  induction d with
  | nil => simp at hmem
  | cons kv rest ih =>
    rw [List.map_cons, dictLookup_cons]
    by_cases hk : kv.1 = k
    · have hf : (if (kv.1 == k) = true then (k, v) else kv) = (k, v) :=
        if_pos (by simpa using hk)
      rw [hf, if_pos rfl]
    · have hf : (if (kv.1 == k) = true then (k, v) else kv) = kv :=
        if_neg (by simpa using hk)
      have hmem' : rest.any (fun kv => kv.1 == k) = true := by
        simpa [hk] using hmem
      rw [hf, if_neg hk, ih hmem']

/-- A key matching no entry looks up to `none`. -/
theorem lookup_eq_none_of_not_any (d : List (String × PyVal)) (k : String)
    (h : d.any (fun kv => kv.1 == k) = false) :
    dictLookup d k = Option.none := by
  induction d with
  | nil => rfl
  | cons kv rest ih =>
    simp only [List.any_cons, Bool.or_eq_false_iff] at h
    have hk : kv.1 ≠ k := by simpa using h.1
    rw [dictLookup_cons, if_neg hk, ih h.2]

/-- Appending a fresh entry makes its key look up to the new value. -/
theorem lookup_append_self (d : List (String × PyVal)) (k : String) (v : PyVal)
    (h : dictLookup d k = Option.none) :
    dictLookup (d ++ [(k, v)]) k = some v := by
  induction d with
  | nil =>
    show dictLookup [(k, v)] k = some v
    rw [dictLookup_cons, if_pos rfl]
  | cons kv rest ih =>
    rw [dictLookup_cons] at h
    by_cases hkk : kv.1 = k
    · rw [if_pos hkk] at h
      exact absurd h (by simp)
    · rw [if_neg hkk] at h
      rw [List.cons_append, dictLookup_cons, if_neg hkk, ih h]

/-- After `dictInsert d k v`, the key `k` looks up to `v`. -/
theorem lookup_dictInsert_self (d : List (String × PyVal)) (k : String) (v : PyVal) :
    dictLookup (dictInsert d k v) k = some v := by
  unfold dictInsert
  split
  · next hmem => exact lookup_map_update_self d k v hmem
  · next hmem =>
    exact lookup_append_self d k v
      (lookup_eq_none_of_not_any d k (Bool.eq_false_iff.mpr hmem))

/-- Every entry of `dictInsert d k v` is an entry of `d` or carries the key
`k`. -/
theorem mem_dictInsert (d : List (String × PyVal)) (k : String) (v : PyVal)
    (kv : String × PyVal) (h : kv ∈ dictInsert d k v) : kv ∈ d ∨ kv.1 = k := by
  unfold dictInsert at h
  split at h
  · obtain ⟨kv₀, hkv₀, hf⟩ := List.mem_map.mp h
    split at hf
    · exact Or.inr (by rw [← hf])
    · exact Or.inl (hf ▸ hkv₀)
  · rcases List.mem_append.mp h with h' | h'
    · exact Or.inl h'
    · have : kv = (k, v) := List.mem_singleton.mp h'
      exact Or.inr (by rw [this])

/-- Every entry produced by the metadata fold carries a lower-cased input
key (or was already in the accumulator). -/
theorem process_metadata_keys (hook : String → PyVal → PyVal) :
    ∀ (pairs acc : List (String × PyVal)) (kv : String × PyVal),
      kv ∈ pairs.foldl (fun metadata kv' =>
        dictInsert metadata (pyLower kv'.1)
          (hook (pyLower kv'.1) (normalize_meta_value kv'.2))) acc →
      kv ∈ acc ∨ ∃ p ∈ pairs, kv.1 = pyLower p.1 := by
  intro pairs
  induction pairs with
  | nil => intro acc kv h; exact Or.inl h
  | cons p rest ih =>
    intro acc kv h
    rcases ih _ kv h with hacc | ⟨q, hq, hkq⟩
    · rcases mem_dictInsert _ _ _ kv hacc with h' | h'
      · exact Or.inl h'
      · exact Or.inr ⟨p, List.mem_cons_self _ _, h'⟩
    · exact Or.inr ⟨q, List.mem_cons_of_mem _ hq, hkq⟩

/-! ### Strip lemmas -/

/-- The head surviving `dropWhile` does not satisfy the predicate. -/
theorem head_not_of_dropWhileL (p : Char → Bool) (l : List Char) (c : Char)
    (h : (l.dropWhile p).head? = some c) : p c = false := by
  have hm := List.head?_dropWhile_not p l
  rw [h] at hm
  exact hm

/-- The first character surviving a two-sided strip does not satisfy the
predicate. -/
theorem pyStrip_head (p : Char → Bool) (l : List Char) (c : Char)
    (h : (pyStrip p l).head? = some c) : p c = false := by
  unfold pyStrip dropRightWhileL at h
  obtain ⟨w, hw⟩ := List.dropWhile_suffix (l := (l.dropWhile p).reverse) p
  have hy : l.dropWhile p =
      ((l.dropWhile p).reverse.dropWhile p).reverse ++ w.reverse := by
    rw [← List.reverse_append, hw, List.reverse_reverse]
  cases hzr : ((l.dropWhile p).reverse.dropWhile p).reverse with
  | nil => rw [hzr] at h; exact absurd h (by simp)
  | cons a zz =>
    rw [hzr] at h
    simp only [List.head?_cons, Option.some.injEq] at h
    apply head_not_of_dropWhileL p l c
    rw [hy, hzr, ← h]
    rfl

/-- The last character surviving a two-sided strip does not satisfy the
predicate. -/
theorem pyStrip_getLast (p : Char → Bool) (l : List Char) (c : Char)
    (h : (pyStrip p l).getLast? = some c) : p c = false := by
  unfold pyStrip dropRightWhileL at h
  rw [List.getLast?_reverse] at h
  exact head_not_of_dropWhileL p _ c h

/-- The metadata-block checker reports the missing-header error whenever the
first line of nonempty content does not right-trim to `---`. -/
theorem check_yaml_header_error (content : String) (firstLine : List Char)
    (rest : List (List Char)) (hsplit : pySplitlines content.data = firstLine :: rest)
    (hne : pyRstrip firstLine ≠ "---".data) :
    check_yaml_metadata_block content =
      Except.error (PyErr.exception "Could not find metadata header \x27---\x27.") := by
  have hcne : content ≠ "" := by
    intro he
    rw [he] at hsplit
    exact List.noConfusion hsplit
  simp only [check_yaml_metadata_block, if_neg hcne, hsplit]
  rw [if_pos hne]

/-! ## Claims -/

/-- Claim C1 (code bug).  The claim states that, for a document opening with
`---`, the checker raises the unterminated-metadata-block error iff no
remaining line trims to `---`/`...`, succeeding in particular when the
closing delimiter is the line immediately after the opener.  The code
violates this: on `---\n---\nbody` the closing delimiter is found at
`enumerate` index 0, which is falsy in Python, so `if not yaml_block_end`
treats it as "not found" and the checker raises the unterminated error
anyway.  This theorem evaluates the embedded checker at that failing input:
the split lines show the closing delimiter is present right after the
opener, yet the checker returns the unterminated-block error. -/
theorem claim_C1 :
    pySplitlines ("---\n---\nbody" : String).data =
      ["---".data, "---".data, "body".data] ∧
    pyRstrip "---".data = "---".data ∧
    check_yaml_metadata_block "---\n---\nbody" =
      Except.error (PyErr.exception "Could not find end of metadata block.") := by
  decide

/-- Claim C2, counterexample.  With a non-empty `MYST_EXTENSIONS` list, the
second pipeline call started from the configuration produced by the first
call changes the configuration again (appending a duplicate of the
extension list), refuting "every subsequent call leaves the parser
configuration unchanged, only reading it". -/
theorem claim_C2_counterexample :
    (create_html exampleHost extSettings
        ((create_html exampleHost extSettings [] "x").1) "x").1 ≠
      (create_html exampleHost extSettings [] "x").1 := by
  decide

/-- Claim C2 (amended).  The shared parser configuration is extended with
the configured extensions on every `_create_html` call (before any
validation), not only during the first document: each call appends the
extension list, so with a non-empty extensions list every call mutates the
configuration, and after `n + 1` calls it holds one more copy of the list
than after `n` calls. -/
theorem claim_C2 (host : Host) (settings : Settings) (parserConfig : List String)
    (content : String) (hl : settings.mystExtensionsIsList = true) :
    (create_html host settings parserConfig content).1 =
      parserConfig ++ settings.mystExtensions ∧
    (settings.mystExtensions ≠ [] →
      (create_html host settings parserConfig content).1 ≠ parserConfig) ∧
    (∀ n, configAfterCalls host settings content (n + 1) =
      configAfterCalls host settings content n ++ settings.mystExtensions) := by
  have h1 : (create_html host settings parserConfig content).1 =
      parserConfig ++ settings.mystExtensions := by
    simp [create_html, hl]
  refine ⟨h1, ?_, ?_⟩
  · intro hne heq
    rw [h1] at heq
    have hlen := congrArg List.length heq
    rw [List.length_append] at hlen
    exact hne (List.eq_nil_of_length_eq_zero (by omega))
  · intro n
    show (create_html host settings (configAfterCalls host settings content n) content).1 = _
    simp [create_html, hl]

/-- Claim C2, witness: one extension configured, the first call produces
`["deflist"]` and the second call appends another copy. -/
theorem claim_C2_witness :
    (create_html exampleHost extSettings [] exampleContent).1 = ["deflist"] ∧
    configAfterCalls exampleHost extSettings exampleContent 2 =
      configAfterCalls exampleHost extSettings exampleContent 1 ++ ["deflist"] := by
  constructor
  · exact ((claim_C2 exampleHost extSettings [] exampleContent rfl).1).trans (by decide)
  · exact (claim_C2 exampleHost extSettings [] exampleContent rfl).2.2 1

/-- Claim C3, counterexample.  A successful pipeline run on a converter
output with no TOC nav element still stores a `toc` key (bound to the
Python `None` that `find` returned, passed through the hook), refuting "for
every document whose converter output contains no TOC navigation element,
the returned metadata contains no `toc` key". -/
theorem claim_C3_counterexample :
    exampleBody.navTOC = Option.none ∧
    (create_html exampleHost {} [] exampleContent).2 =
      Except.ok ("<p>hi</p>", [("toc", PyVal.none)]) ∧
    dictLookup [("toc", PyVal.none)] "toc" = some PyVal.none := by
  decide

/-- Claim C3 (amended).  A `toc` key is always present in the metadata of a
successful pipeline run — the pipeline always requests TOC extraction and
stores the hook-processed result unconditionally; when no nav element was
found the stored value is the empty extraction result (Python `None`), not
an absent key. -/
theorem claim_C3 (host : Host) (settings : Settings) (parserConfig : List String)
    (content html : String) (md : List (String × PyVal))
    (h : (create_html host settings parserConfig content).2 = Except.ok (html, md)) :
    dictLookup md "toc" ≠ Option.none := by
  simp only [create_html] at h
  split at h
  · exact Except.noConfusion h
  · split at h
    · exact Except.noConfusion h
    · split at h
      · split at h
        · exact Except.noConfusion h
        · rw [Except.ok.injEq, Prod.mk.injEq] at h
          obtain ⟨hhtml, hmd⟩ := h
          rw [← hmd]
          rw [lookup_dictInsert_ne _ _ _ _ (by decide), lookup_dictInsert_self]
          simp
      · rw [Except.ok.injEq, Prod.mk.injEq] at h
        obtain ⟨hhtml, hmd⟩ := h
        rw [← hmd]
        rw [lookup_dictInsert_self]
        simp

/-- Claim C3, witness: the concrete successful run of the counterexample
host has a `toc` key in its metadata. -/
theorem claim_C3_witness :
    dictLookup [("toc", PyVal.none)] "toc" ≠ Option.none :=
  claim_C3 exampleHost {} [] exampleContent "<p>hi</p>" [("toc", PyVal.none)] (by decide)

/-- Claim C4 (code bug).  The format validators are pure functions that do
reject invalid defaults records — the repository's own tests
(`test_cases_with_invalid_default_files.py`) assert that `read` raises
their errors — but the pipeline never invokes them: `_create_html` reads
`MYST_DEFAULT_FILES` into `default_files` and then ignores it, so
processing a document with an invalid defaults record succeeds.  First
conjunct: the validator rejects the record with both `reader` and `from`
set.  Second conjunct: the pipeline nevertheless succeeds with that record
configured.  Third conjunct: the pipeline result does not depend on the
configured defaults records at all. -/
theorem claim_C4 :
    check_input_format invalidDefaultsRecord =
      Except.error (PyErr.valueError
        "Specifying both from and reader is not supported. Please specify just one.") ∧
    (create_html exampleHost invalidDefaultsSettings [] exampleContent).2 =
      Except.ok ("<p>hi</p>", [("toc", PyVal.none)]) ∧
    (∀ (host : Host) (settings : Settings) (df : List DefaultsRecord)
      (parserConfig : List String) (content : String),
      create_html host { settings with mystDefaultFiles := df } parserConfig content =
        create_html host settings parserConfig content) := by
  refine ⟨by decide, by decide, ?_⟩
  intro host settings df parserConfig content
  rfl

/-- Claim C5 (confirmed).  For every numeric configured reading speed
coercing to a nonzero rational `q`, the estimator returns the string
`ceil(wordcount / q)` followed by `" minute"` when that value is 1 and
`" minutes"` otherwise.  (A zero speed makes the Python division raise
`ZeroDivisionError` instead, hence the nonzero hypothesis.) -/
theorem claim_C5 (strFloat : String → Option ℚ) (wordcount : ℕ) (speedVal : PyVal)
    (q : ℚ) (hcoerce : pyFloatCoerce strFloat speedVal = Except.ok q) (hq : q ≠ 0) :
    calculate_reading_time strFloat wordcount speedVal =
      Except.ok (toString (⌈(wordcount : ℚ) / q⌉ : ℤ) ++
        (if (⌈(wordcount : ℚ) / q⌉ : ℤ) = 1 then " minute" else " minutes")) := by
  simp only [calculate_reading_time, hcoerce]
  rw [if_neg hq]
  by_cases h1 : (⌈(wordcount : ℚ) / q⌉ : ℤ) = 1
  · rw [if_pos h1, if_pos h1, String.append_assoc]
    rfl
  · rw [if_neg h1, if_neg h1, String.append_assoc]
    rfl

/-- Claim C5, witness: a 400-word document at the default 200 wpm reads as
"2 minutes" and an exactly-200-word one as "1 minute". -/
theorem claim_C5_witness :
    calculate_reading_time (fun _ => Option.none) 400 (PyVal.int 200) =
      Except.ok "2 minutes" ∧
    calculate_reading_time (fun _ => Option.none) 200 (PyVal.int 200) =
      Except.ok "1 minute" := by
  constructor
  · rw [claim_C5 (fun _ => Option.none) 400 (PyVal.int 200) ((200 : ℤ) : ℚ) rfl
      (by norm_num)]
    have hc : (⌈((400 : ℕ) : ℚ) / ((200 : ℤ) : ℚ)⌉ : ℤ) = 2 := by norm_num
    rw [hc, if_neg (by decide)]
    rfl
  · rw [claim_C5 (fun _ => Option.none) 200 (PyVal.int 200) ((200 : ℤ) : ℚ) rfl
      (by norm_num)]
    have hc : (⌈((200 : ℕ) : ℚ) / ((200 : ℤ) : ℚ)⌉ : ℤ) = 1 := by norm_num
    rw [hc, if_pos rfl]
    rfl

/-- Claim C6, counterexample.  `READING_SPEED = None` cannot be coerced to a
float, yet the estimator does not fail with the reading-speed configuration
`ValueError`: `float(None)` raises `TypeError`, which the `except
ValueError` clause does not catch, so a different kind of failure
propagates — refuting "whatever its type ... with no other kind of
failure". -/
theorem claim_C6_counterexample :
    calculate_reading_time (fun _ => Option.none) 100 PyVal.none =
      Except.error (PyErr.typeError
        "float() argument must be a string or a number, not NoneType") ∧
    PyErr.typeError "float() argument must be a string or a number, not NoneType" ≠
      PyErr.valueError "READING_SPEED setting must be a number." := by
  decide

/-- Claim C6 (amended).  A string `READING_SPEED` that does not parse as a
float makes the estimator fail with the `ValueError` carrying exactly
"READING_SPEED setting must be a number." (the `float` `ValueError` is
caught and re-raised with this message); a non-string non-numeric value
such as `None` instead makes the uncaught `TypeError` from `float`
propagate. -/
theorem claim_C6 (strFloat : String → Option ℚ) (wordcount : ℕ) :
    (∀ s : String, strFloat s = Option.none →
      calculate_reading_time strFloat wordcount (PyVal.str s) =
        Except.error (PyErr.valueError "READING_SPEED setting must be a number.")) ∧
    calculate_reading_time strFloat wordcount PyVal.none =
      Except.error (PyErr.typeError
        "float() argument must be a string or a number, not NoneType") := by
  constructor
  · intro s hs
    simp [calculate_reading_time, pyFloatCoerce, hs]
  · rfl

/-- Claim C6, witness: the unparseable string "abc". -/
theorem claim_C6_witness :
    calculate_reading_time (fun _ => Option.none) 100 (PyVal.str "abc") =
      Except.error (PyErr.valueError "READING_SPEED setting must be a number.") :=
  (claim_C6 (fun _ => Option.none) 100).1 "abc" rfl

/-- Claim C7, counterexample.  The value `" hi "` surrounded by double
quotes: Python strips whitespace first and quotes second
(`value.strip().strip('"')`), so the normalized value `" hi "` retains the
whitespace that was inside the quotes — refuting "the normalized string has
no leading or trailing whitespace".  (The key is lower-cased as claimed.) -/
theorem claim_C7_counterexample :
    process_metadata (fun _ v => v) [("Title", PyVal.str "\x22 hi \x22")] =
      [("title", PyVal.str " hi ")] ∧
    (" hi " : String).data.head? = some ' ' ∧
    (" hi " : String).data.getLast? = some ' ' := by
  decide

/-- Claim C7 (amended).  Metadata normalisation lower-cases every key; a
non-empty string value is stripped of surrounding whitespace and then of
surrounding double quotes, in that order, so the value handed to the hook
has no surrounding double quotes but may retain whitespace that was inside
the quotes; non-string values (and the empty string) are handed to the hook
unchanged. -/
theorem claim_C7 (hook : String → PyVal → PyVal) :
    (∀ s : String, s ≠ "" →
      normalize_meta_value (PyVal.str s) =
        PyVal.str (String.mk (pyStrip (fun c => c == '\x22') (pyStrip pyIsSpace s.data)))) ∧
    (∀ s t : String, normalize_meta_value (PyVal.str s) = PyVal.str t →
      t.data.head? ≠ some '\x22' ∧ t.data.getLast? ≠ some '\x22') ∧
    (∀ v : PyVal, (∀ u : String, v ≠ PyVal.str u) → normalize_meta_value v = v) ∧
    (∀ (pairs : List (String × PyVal)) (kv : String × PyVal),
      kv ∈ process_metadata hook pairs → ∃ p ∈ pairs, kv.1 = pyLower p.1) := by
  refine ⟨?_, ?_, ?_, ?_⟩
  · intro s hs
    simp [normalize_meta_value, hs]
  · intro s t h
    simp only [normalize_meta_value] at h
    split at h
    · rw [PyVal.str.injEq] at h
      subst h
      constructor
      · intro hc
        have := pyStrip_head (fun c => c == '\x22') (pyStrip pyIsSpace s.data) _ hc
        simp at this
      · intro hc
        have := pyStrip_getLast (fun c => c == '\x22') (pyStrip pyIsSpace s.data) _ hc
        simp at this
    · next hs =>
      rw [PyVal.str.injEq] at h
      have hse : s = "" := by simpa using hs
      rw [← h, hse]
      constructor <;> simp
  · intro v hv
    match v with
    | PyVal.str u => exact absurd rfl (hv u)
    | PyVal.none => rfl
    | PyVal.bool _ => rfl
    | PyVal.int _ => rfl
    | PyVal.float _ => rfl
  · intro pairs kv h
    rcases process_metadata_keys hook pairs [] kv h with h' | h'
    · exact absurd h' (List.not_mem_nil kv)
    · exact h'

/-- Claim C7, witness: a quoted value loses its quotes (and here also its
whitespace, since the whitespace was outside the quotes), and a non-string
value is unchanged. -/
theorem claim_C7_witness :
    normalize_meta_value (PyVal.str " \x22q\x22 ") = PyVal.str "q" ∧
    normalize_meta_value (PyVal.int 3) = PyVal.int 3 := by
  constructor
  · rw [(claim_C7 (fun _ v => v)).1 " \x22q\x22 " (by decide)]
    decide
  · exact (claim_C7 (fun _ v => v)).2.2.1 (PyVal.int 3) (fun u h => PyVal.noConfusion h)

/-- Claim C8 (confirmed).  The link-placeholder rewrite is a literal
substring replacement of the three patterns: for every input string the
sequential replacement gives the same result in all six application orders,
that common result equals the simultaneous single-pass scan `linkSimul`
(which by construction copies every character not inside an occurrence of a
pattern unchanged), and a string containing no occurrence of any pattern is
left entirely unchanged. -/
theorem claim_C8 :
    ∀ s : String,
      (linkPassASF s = replace_encoded_links s ∧
       linkPassAFS s = replace_encoded_links s ∧
       linkPassSFA s = replace_encoded_links s ∧
       linkPassFSA s = replace_encoded_links s ∧
       linkPassFAS s = replace_encoded_links s) ∧
      replace_encoded_links s = linkSimul s ∧
      ((¬ patStatic <:+: s.data ∧ ¬ patAttach <:+: s.data ∧ ¬ patFilename <:+: s.data) →
        replace_encoded_links s = s) := by
  intro s
  refine ⟨⟨?_, ?_, ?_, ?_, ?_⟩, ?_, ?_⟩
  · exact congrArg String.mk ((listASF_eq s.data).trans (listSAF_eq s.data).symm)
  · exact congrArg String.mk ((listAFS_eq s.data).trans (listSAF_eq s.data).symm)
  · exact congrArg String.mk ((listSFA_eq s.data).trans (listSAF_eq s.data).symm)
  · exact congrArg String.mk ((listFSA_eq s.data).trans (listSAF_eq s.data).symm)
  · exact congrArg String.mk ((listFAS_eq s.data).trans (listSAF_eq s.data).symm)
  · exact congrArg String.mk (listSAF_eq s.data)
  · rintro ⟨h1, h2, h3⟩
    show String.mk (pyReplace patFilename rawFilenameL
      (pyReplace patAttach rawAttachL (pyReplace patStatic rawStaticL s.data))) = s
    rw [pyReplace_no_occurrence patStatic rawStaticL s.data h1,
      pyReplace_no_occurrence patAttach rawAttachL s.data h2,
      pyReplace_no_occurrence patFilename rawFilenameL s.data h3]

/-- Claim C8, witness: the spec's example body is rewritten as stated, and a
placeholder-free string is left unchanged (via the no-occurrence clause of
the claim theorem). -/
theorem claim_C8_witness :
    replace_encoded_links "href=\x22%7Bstatic%7Dimages/a.png\x22" =
      "href=\x22\x7bstatic\x7dimages/a.png\x22" ∧
    replace_encoded_links "plain text" = "plain text" :=
  ⟨by decide, (claim_C8 "plain text").2.2 ⟨by decide, by decide, by decide⟩⟩

/-- Claim C9 (confirmed).  For every document whose first line does not
right-trim to `---`, the pipeline fails with the missing-metadata-header
error; since the host (and in particular the converter `host.convert`) is
universally quantified and the result does not depend on it, the failure
occurs before any conversion call. -/
theorem claim_C9 (host : Host) (settings : Settings) (parserConfig : List String)
    (content : String) (firstLine : List Char) (rest : List (List Char))
    (hsplit : pySplitlines content.data = firstLine :: rest)
    (hne : pyRstrip firstLine ≠ "---".data) :
    (create_html host settings parserConfig content).2 =
      Except.error (PyErr.exception "Could not find metadata header \x27---\x27.") := by
  have hch := check_yaml_header_error content firstLine rest hsplit hne
  simp only [create_html, hch]

/-- Claim C9, witness: a delimiter-free document fails with the header
error under the concrete example host. -/
theorem claim_C9_witness :
    (create_html exampleHost {} [] "hello").2 =
      Except.error (PyErr.exception "Could not find metadata header \x27---\x27.") :=
  claim_C9 exampleHost {} [] "hello" "hello".data [] (by decide) (by decide)

/-- Claim C10 (confirmed).  For every converter output whose first line
parses as JSON but whose HTML remainder parses to a soup without a `body`
element, `_extract_contents` raises (`AttributeError` from the attribute
access on `soup.body`, at the TOC lookup when the flag is set, at the body
unwrap otherwise) instead of returning a triple. -/
theorem claim_C10 (jsonLoads : String → Except PyErr (List (String × PyVal)))
    (parseHtml : String → Soup) (blob : String) (flag : Bool)
    (md : List (String × PyVal))
    (hjson : jsonLoads (String.mk (pyPartitionNl blob.data).1) = Except.ok md)
    (hbody : (parseHtml (String.mk (pyPartitionNl blob.data).2)).body = Option.none) :
    extract_contents jsonLoads parseHtml blob flag =
      Except.error (PyErr.attributeError (if flag then "find" else "unwrap")) := by
  simp only [extract_contents, hjson]
  cases flag <;> simp [hbody]

/-- Claim C10, witness: a converter output with a valid JSON first line and
a body-less HTML remainder. -/
theorem claim_C10_witness :
    extract_contents (fun _ => Except.ok []) (fun _ => { body := Option.none })
      "\x7b\x7d\n<p>hi</p>" true = Except.error (PyErr.attributeError "find") :=
  claim_C10 (fun _ => Except.ok []) (fun _ => { body := Option.none })
    "\x7b\x7d\n<p>hi</p>" true [] rfl rfl

end MystReader
